import Mathlib

/-!
# eg-metro: the LV2 metronome example plugin (`plugins/eg-metro.lv2/metro.c`)

A shallow embedding of the plugin's instance state and of `activate`,
`instantiate`, `play`, `update_position` and `run`, followed by theorems about
them.

Conventions of the embedding.

* `uint32_t` values are natural numbers; every arithmetic step that C performs
  in 32 bits is reduced modulo `UINT32_MOD` (`u32_add`, `u32_sub`).
* `float` and `double` values are rationals.  Every floating point operation
  is the exact operation followed by rounding to the type C gives the result
  (`f32` for `float`, `f64` for `double`: IEEE 754 binary32 and binary64, round
  to nearest, ties to even, with gradual underflow), the operands being promoted
  by the usual arithmetic conversions and each operation evaluated in its own
  type.  Infinities, NaN and the sign of zero are not represented: the exponent
  range is unbounded above and a floating point division by zero yields `0`.
* A conversion of a floating point value to `uint32_t` truncates toward zero
  and is then reduced modulo `UINT32_MOD` (`f2u32`); C leaves that conversion
  undefined outside `[0, 2^32)`.
* The output port is a list of samples that `play` takes and returns; the
  control port is the list of events handed to `run`.
* The remainder by `wave_len = 0` (the program traps), a read past the end of
  the wave table and a write past the end of the output buffer are undefined in
  C.  `play_frame_checked`, `play_loop_checked` and `play_checked` return `none`
  there; `play_frame`, `play_loop` and `play` are their values wherever the
  result is defined (`play_checked_eq`), with `x % 0 = x`, a read past the end
  of the table reading `0` and a write past the end of the buffer writing
  nothing.
-/

namespace EgMetro

/-- The number of values of a `uint32_t`. -/
def UINT32_MOD : ℕ := 4294967296

/-- Addition of two `uint32_t` values. -/
def u32_add (a b : ℕ) : ℕ := (a + b) % UINT32_MOD

/-- Subtraction of two `uint32_t` values (`b < UINT32_MOD`). -/
def u32_sub (a b : ℕ) : ℕ := (a + UINT32_MOD - b) % UINT32_MOD

/-- Conversion of a `float`/`double` value to `uint32_t`: truncation toward
zero, reduced modulo `UINT32_MOD`. -/
def f2u32 (x : ℚ) : ℕ := ((x.num.tdiv (x.den : ℤ)) % (UINT32_MOD : ℤ)).toNat

/-- The C library `floorf`. -/
def floorf (x : ℚ) : ℚ := ((Rat.floor x : ℤ) : ℚ)

/-- The binary logarithm of a natural number `n ≥ 1`, rounded down, by repeated
halving; the first argument bounds the number of halvings. -/
def log2_fuel : ℕ → ℕ → ℕ
  | 0, _ => 0
  | fuel + 1, n => if 2 ≤ n then log2_fuel fuel (n / 2) + 1 else 0

/-- The binary exponent of a positive rational `x`: the integer `e` with
`2^e ≤ x < 2^(e+1)`. -/
def ilog2 (x : ℚ) : ℤ :=
  let e0 : ℤ :=
    (log2_fuel x.num.natAbs x.num.natAbs : ℤ) - (log2_fuel x.den x.den : ℤ)
  if (2 : ℚ) ^ e0 ≤ x then e0 else e0 - 1

/-- Rounding to the nearest integer, ties to the even one. -/
def round_even (s : ℚ) : ℤ :=
  let f := Rat.floor s
  if s - (f : ℚ) < 1 / 2 then f
  else if 1 / 2 < s - (f : ℚ) then f + 1
  else if f % 2 = 0 then f else f + 1

/-- The exponent of the unit in the last place of `x` in a binary format with
`p` significand bits whose smallest subnormal is `2^emin`. -/
def ulp_exp (p : ℕ) (emin : ℤ) (x : ℚ) : ℤ := max (ilog2 |x| - ((p : ℤ) - 1)) emin

/-- Rounding of `x` to the binary floating point format with `p` significand
bits and smallest subnormal `2^emin`: to nearest, ties to even. -/
def rnd (p : ℕ) (emin : ℤ) (x : ℚ) : ℚ :=
  (round_even (x / (2 : ℚ) ^ ulp_exp p emin x) : ℚ) * (2 : ℚ) ^ ulp_exp p emin x

/-- Rounding to `float` (IEEE 754 binary32). -/
def f32 (x : ℚ) : ℚ := rnd 24 (-149) x

/-- Rounding to `double` (IEEE 754 binary64). -/
def f64 (x : ℚ) : ℚ := rnd 53 (-1074) x

/-- The URIDs the plugin maps at instantiation (`MetroURIs`). -/
structure MetroURIs where
  atom_Blank : ℕ
  atom_Float : ℕ
  atom_Path : ℕ
  atom_Resource : ℕ
  time_Position : ℕ
  time_barBeat : ℕ
  time_beatsPerMinute : ℕ
  time_speed : ℕ
deriving DecidableEq

/-- The envelope state (`State`). -/
inductive State where
  | STATE_ATTACK
  | STATE_DECAY
  | STATE_OFF
deriving DecidableEq

open State

/-- The plugin instance (`Metro`), without the host's map pointer and the port
pointers: the buffers the ports point to are passed to `play` and `run`. -/
structure Metro where
  uris : MetroURIs
  rate : ℚ
  bpm : ℚ
  speed : ℚ
  elapsed_len : ℕ
  wave_offset : ℕ
  wave : List ℚ
  wave_len : ℕ
  attack_len : ℕ
  decay_len : ℕ
  state : State
deriving DecidableEq

/-- An atom header together with the body of an `LV2_Atom_Float`; `body` is
meaningful when `type` is the URID of `atom:Float`. -/
structure LV2_Atom where
  type : ℕ
  body : ℚ
deriving DecidableEq

/-- One property of an object: a key and a value atom. -/
structure LV2_Atom_Property_Body where
  key : ℕ
  value : LV2_Atom
deriving DecidableEq

/-- An event body read as an `LV2_Atom_Object`: the atom type, the object
type and the properties. -/
structure LV2_Atom_Object where
  type : ℕ
  otype : ℕ
  props : List LV2_Atom_Property_Body
deriving DecidableEq

/-- An event of the control sequence: a frame offset and a body. -/
structure LV2_Atom_Event where
  frames : ℕ
  body : LV2_Atom_Object
deriving DecidableEq

/-- Modelled from the spec: `lv2_atom_object_get` is declared in the LV2 atom
utility header, which is not among the source files.  Each of the three queried
fields is optional per object; the value found for a key is that of the first
property carrying the key. -/
def lv2_atom_object_get (obj : LV2_Atom_Object) (key : ℕ) : Option LV2_Atom :=
  (obj.props.find? (fun p => decide (p.key = key))).map (fun p => p.value)

/-- The wave table element `self->wave[i]`. -/
def wave_at (self : Metro) (i : ℕ) : ℚ := self.wave.getD i 0

/-- Source `activate`. -/
def activate (self : Metro) : Metro :=
  { self with elapsed_len := 0, wave_offset := 0, state := STATE_OFF }

/-- The constant `attack_s`: the `double` nearest to `0.005`. -/
def attack_s : ℚ := f64 (5 / 1000)

/-- The constant `decay_s`: the `double` nearest to `0.075`. -/
def decay_s : ℚ := f64 (75 / 1000)

/-- Source `instantiate`.  `rate` is the `double` sample rate, `map` is the
URID table obtained from the host's `urid:map` feature (`none` when the host
does not offer it), `tbl i` is the value
`sin(i * 2 * M_PI * freq / rate) * amp` stored in `wave[i]`.  The three lengths
are `double` expressions converted to `uint32_t`.  The instance is
zero-initialised by `calloc`. -/
def instantiate (rate : ℚ) (map : Option MetroURIs) (tbl : ℕ → ℚ) : Option Metro :=
  match map with
  | none => none
  | some uris =>
    let freq : ℚ := 440 * 2
    let wave_len := f2u32 (f64 (rate / freq))
    some
      { uris := uris
        rate := rate
        bpm := 120
        speed := 0
        elapsed_len := 0
        wave_offset := 0
        wave := (List.range wave_len).map tbl
        wave_len := wave_len
        attack_len := f2u32 (f64 (attack_s * rate))
        decay_len := f2u32 (f64 (decay_s * rate))
        state := STATE_OFF }

/-- The local `frames_per_beat` of `play`: the `float` quotient
`60.0f / self->bpm`, multiplied by the `double` `self->rate` in `double`, and
converted to `uint32_t`. -/
def frames_per_beat (self : Metro) : ℕ := f2u32 (f64 (f32 (60 / self.bpm) * self.rate))

/-- The sample the `switch` of `play` stores in `output[i]`.  The integer
operands are converted to `float` and every operation is a `float` operation:
`(wave[wave_offset] * elapsed_len) / (float)attack_len` in `Attack`,
`wave[wave_offset] * (1 - (elapsed_len - attack_len) / (float)decay_len)` in
`Decay`, the difference being taken in `uint32_t`. -/
def play_sample (self : Metro) : ℚ :=
  match self.state with
  | STATE_ATTACK =>
    f32 (f32 (wave_at self self.wave_offset * f32 (self.elapsed_len : ℚ)) /
      f32 (self.attack_len : ℚ))
  | STATE_DECAY =>
    f32 (wave_at self self.wave_offset *
      f32 (1 - f32 (f32 ((u32_sub self.elapsed_len self.attack_len : ℕ) : ℚ) /
        f32 (self.decay_len : ℚ))))
  | STATE_OFF => 0

/-- The envelope state the `switch` of `play` leaves behind. -/
def play_switch (self : Metro) : State :=
  match self.state with
  | STATE_ATTACK =>
    if self.elapsed_len ≥ self.attack_len then STATE_DECAY else STATE_ATTACK
  | STATE_DECAY =>
    if self.elapsed_len ≥ u32_add self.attack_len self.decay_len then STATE_OFF
    else STATE_DECAY
  | STATE_OFF => STATE_OFF

/-- One iteration of the loop of `play`, where it is defined (`wave_len ≠ 0`):
the sample for the current frame and the instance after the frame.  In the
decay branch the source first stores `0.0f` in `output[i]` and overwrites it at
once; the single sample returned here is the value the frame leaves in
`output[i]`. -/
def play_frame (fpb : ℕ) (self : Metro) : Metro × ℚ :=
  let sample := play_sample self
  let st := play_switch self
  let wave_offset := (u32_add self.wave_offset 1) % self.wave_len
  let elapsed_len := u32_add self.elapsed_len 1
  if elapsed_len = fpb then
    ({ self with state := STATE_ATTACK, elapsed_len := 0, wave_offset := wave_offset },
      sample)
  else
    ({ self with state := st, elapsed_len := elapsed_len, wave_offset := wave_offset },
      sample)

/-- The loop `for (i = begin; i < end; ++i)` of `play`, with `n` iterations
left and `i` the current index. -/
def play_loop (fpb : ℕ) : ℕ → ℕ → Metro → List ℚ → Metro × List ℚ
  | 0, _, self, output => (self, output)
  | n + 1, i, self, output =>
    play_loop fpb n (i + 1) (play_frame fpb self).1 (output.set i (play_frame fpb self).2)

/-- The call `memset(output, 0, n * sizeof(float))`: the first `n` samples of
the buffer become zero. -/
def memset_zero (output : List ℚ) (n : ℕ) : List ℚ :=
  List.replicate (min n output.length) 0 ++ output.drop n

/-- Source `play`. -/
def play (self : Metro) (output : List ℚ) (begin end_ : ℕ) : Metro × List ℚ :=
  let fpb := frames_per_beat self
  if self.speed = 0 then
    (self, memset_zero output (u32_sub end_ begin))
  else
    play_loop fpb (end_ - begin) begin self output

/-- One iteration of the loop of `play`: `none` when the `Attack` or `Decay`
branch reads `wave[wave_offset]` past the end of the wave table, and when
`wave_len = 0`, where the remainder `(wave_offset + 1) % wave_len` is a division
by zero. -/
def play_frame_checked (fpb : ℕ) (self : Metro) : Option (Metro × ℚ) :=
  if self.state ≠ STATE_OFF ∧ self.wave.length ≤ self.wave_offset then none
  else if self.wave_len = 0 then none
  else some (play_frame fpb self)

/-- The loop of `play`, `none` as soon as an iteration writes `output[i]` past
the end of the buffer, reads past the end of the wave table or divides by
zero. -/
def play_loop_checked (fpb : ℕ) : ℕ → ℕ → Metro → List ℚ → Option (Metro × List ℚ)
  | 0, _, self, output => some (self, output)
  | n + 1, i, self, output =>
    if output.length ≤ i then none
    else
      match play_frame_checked fpb self with
      | none => none
      | some r => play_loop_checked fpb n (i + 1) r.1 (output.set i r.2)

/-- Source `play`, `none` when the call has no defined result: the `memset` or
the loop runs past the end of the buffer, or a frame reads past the end of the
wave table or divides by zero. -/
def play_checked (self : Metro) (output : List ℚ) (begin end_ : ℕ) :
    Option (Metro × List ℚ) :=
  let fpb := frames_per_beat self
  if self.speed = 0 then
    if output.length < u32_sub end_ begin then none
    else some (self, memset_zero output (u32_sub end_ begin))
  else
    play_loop_checked fpb (end_ - begin) begin self output

/-- The first block of `update_position`: a `Float` tempo overwrites `bpm`. -/
def update_bpm (self : Metro) (bpm : Option LV2_Atom) : Metro :=
  match bpm with
  | some a => if a.type = self.uris.atom_Float then { self with bpm := a.body } else self
  | none => self

/-- The second block of `update_position`: a `Float` speed overwrites `speed`. -/
def update_speed (self : Metro) (speed : Option LV2_Atom) : Metro :=
  match speed with
  | some a => if a.type = self.uris.atom_Float then { self with speed := a.body } else self
  | none => self

/-- The third block of `update_position`: a `Float` bar-beat resynchronises
`elapsed_len` and the envelope state (a hard sync).  The locals
`frames_per_beat` and `beat_beats` are `float`s, and so is their product, which
is converted to `uint32_t`. -/
def update_beat (self : Metro) (beat : Option LV2_Atom) : Metro :=
  match beat with
  | some a =>
    if a.type = self.uris.atom_Float then
      let frames_per_beat : ℚ := f32 (f64 (f32 (60 / self.bpm) * self.rate))
      let bar_beats : ℚ := a.body
      let beat_beats : ℚ := f32 (bar_beats - floorf bar_beats)
      let elapsed_len := f2u32 (f32 (beat_beats * frames_per_beat))
      if elapsed_len < self.attack_len then
        { self with elapsed_len := elapsed_len, state := STATE_ATTACK }
      else if elapsed_len < u32_add self.attack_len self.decay_len then
        { self with elapsed_len := elapsed_len, state := STATE_DECAY }
      else
        { self with elapsed_len := elapsed_len, state := STATE_OFF }
    else self
  | none => self

/-- Source `update_position`: the three properties are looked up in the object,
then the tempo, the speed and the bar-beat blocks run in this order. -/
def update_position (self : Metro) (obj : LV2_Atom_Object) : Metro :=
  let uris := self.uris
  let beat := lv2_atom_object_get obj uris.time_barBeat
  let bpm := lv2_atom_object_get obj uris.time_beatsPerMinute
  let speed := lv2_atom_object_get obj uris.time_speed
  update_beat (update_speed (update_bpm self bpm) speed) beat

/-- The body of the event loop of `run` up to the assignment of `last_t`: play
the slice before the event, then apply the event if it is a position object. -/
def run_event (self : Metro) (output : List ℚ) (last_t : ℕ) (ev : LV2_Atom_Event) :
    Metro × List ℚ :=
  let r := play self output last_t ev.frames
  if ev.body.type = r.1.uris.atom_Blank then
    if ev.body.otype = r.1.uris.time_Position then
      (update_position r.1 ev.body, r.2)
    else r
  else r

/-- The event loop of `run`.  The loop body ends with
`ev = lv2_atom_sequence_next(ev)` and the `for` header then advances `ev` once
more, so the event that follows a handled event is stepped over. -/
def run_loop : Metro → List ℚ → ℕ → List LV2_Atom_Event → Metro × List ℚ × ℕ
  | self, output, last_t, [] => (self, output, last_t)
  | self, output, last_t, [ev] =>
    ((run_event self output last_t ev).1, (run_event self output last_t ev).2, ev.frames)
  | self, output, last_t, ev :: _ :: rest =>
    run_loop (run_event self output last_t ev).1 (run_event self output last_t ev).2
      ev.frames rest

/-- Source `run`: `control` is the event sequence of the control port. -/
def run (self : Metro) (output : List ℚ) (control : List LV2_Atom_Event)
    (sample_count : ℕ) : Metro × List ℚ :=
  let r := run_loop self output 0 control
  play r.1 r.2.1 r.2.2 sample_count

/-- A run of `play` calls over the given spans, one after the other. -/
def play_spans : Metro → List ℚ → List (ℕ × ℕ) → Metro × List ℚ
  | self, output, [] => (self, output)
  | self, output, sp :: rest =>
    play_spans (play self output sp.1 sp.2).1 (play self output sp.1 sp.2).2 rest

/-- The instances the plugin reaches from `activate self0` by calls of `play`
and by position updates that leave a positive tempo. -/
inductive Reachable (self0 : Metro) : Metro → Prop
  | init : Reachable self0 (activate self0)
  | step_play (s : Metro) (output : List ℚ) (begin end_ : ℕ) :
      Reachable self0 s → Reachable self0 (play s output begin end_).1
  | step_update (s : Metro) (obj : LV2_Atom_Object) :
      Reachable self0 s → 0 < (update_position s obj).bpm →
      Reachable self0 (update_position s obj)

/-- The tempo `self->bpm` holds once the tempo field of `obj` is applied. -/
def tempo_after (self : Metro) (obj : LV2_Atom_Object) : ℚ :=
  match lv2_atom_object_get obj self.uris.time_beatsPerMinute with
  | some a => if a.type = self.uris.atom_Float then a.body else self.bpm
  | none => self.bpm

/-- The speed `self->speed` holds once the speed field of `obj` is applied. -/
def speed_after (self : Metro) (obj : LV2_Atom_Object) : ℚ :=
  match lv2_atom_object_get obj self.uris.time_speed with
  | some a => if a.type = self.uris.atom_Float then a.body else self.speed
  | none => self.speed

/-- The envelope segment an elapsed frame count falls into, by the thresholds of
`update_position`. -/
def segment_of (self : Metro) (elapsed_len : ℕ) : State :=
  if elapsed_len < self.attack_len then STATE_ATTACK
  else if elapsed_len < u32_add self.attack_len self.decay_len then STATE_DECAY
  else STATE_OFF

/-- The conditions on the fixed fields under which the amplitude bound is
stated: positive attack and decay lengths whose sum is a `uint32_t`, and a wave
table with entries in `[-1/2, 1/2]`. -/
def envelope_setup (self : Metro) : Prop :=
  0 < self.attack_len ∧ 0 < self.decay_len ∧
  self.attack_len + self.decay_len < UINT32_MOD ∧
  ∀ x ∈ self.wave, -(1 / 2 : ℚ) ≤ x ∧ x ≤ 1 / 2

/-- A sample within the amplitude `amp = 0.5` of the wave table. -/
def in_amp (x : ℚ) : Prop := -(1 / 2 : ℚ) ≤ x ∧ x ≤ 1 / 2

/-- The number of times the beat trigger `++elapsed_len == frames_per_beat` of
`play` fires during `n` iterations of the loop. -/
def play_beats (fpb : ℕ) : ℕ → Metro → ℕ
  | 0, _ => 0
  | n + 1, self =>
    (if u32_add self.elapsed_len 1 = fpb then 1 else 0) +
      play_beats fpb n (play_frame fpb self).1

/-- The envelope state scheduled for the elapsed position `e` of a beat that
started in `Attack`: `Attack` up to `attack_len`, `Decay` up to
`attack_len + decay_len`, `Off` afterwards. -/
def schedule_state (self : Metro) (e : ℕ) : State :=
  if e ≤ self.attack_len then STATE_ATTACK
  else if e ≤ self.attack_len + self.decay_len then STATE_DECAY
  else STATE_OFF

/-- The sample scheduled for the wave table entry `w` at the elapsed position
`e` of a beat that started in `Attack`: `w * e / attack_len`, then
`w * (1 - (e - attack_len) / decay_len)`, each evaluated in `float` as `play`
evaluates it, then `0`. -/
def schedule_sample (self : Metro) (w : ℚ) (e : ℕ) : ℚ :=
  if e ≤ self.attack_len then f32 (f32 (w * f32 (e : ℚ)) / f32 (self.attack_len : ℚ))
  else if e ≤ self.attack_len + self.decay_len then
    f32 (w * f32 (1 - f32 (f32 ((e - self.attack_len : ℕ) : ℚ) / f32 (self.decay_len : ℚ))))
  else 0

/-- Rounding to the nearest integer, as the specification words the derived
lengths (`round`). -/
def round_nearest (x : ℚ) : ℕ := (Rat.floor (x + 1 / 2)).toNat

/-! ### Concrete instances and events -/

/-- A stand-in for the `float` `sin(i * 2 * M_PI * freq / rate) * amp` that
`instantiate` stores in `wave[i]` (Bhaskara's approximation of the sine, exact
at the quarter periods, rounded to `float`).  It is used for concrete instances
only; statements about arbitrary instances quantify over the table. -/
def sine_tbl (rate : ℚ) (i : ℕ) : ℚ :=
  let p : ℚ := (i : ℚ) * 880 / rate
  let t : ℚ := 2 * (p - floorf p)
  let b : ℚ → ℚ := fun u => 16 * u * (1 - u) / (5 - 4 * u * (1 - u))
  f32 ((if t < 1 then b t else -b (t - 1)) * (1 / 2))

/-- A URID table as a host may hand it out: eight distinct non-zero ids. -/
def uris0 : MetroURIs :=
  { atom_Blank := 1
    atom_Float := 2
    atom_Path := 3
    atom_Resource := 4
    time_Position := 5
    time_barBeat := 6
    time_beatsPerMinute := 7
    time_speed := 8 }

/-- A property with a `Float` value. -/
def float_prop (uris : MetroURIs) (key : ℕ) (v : ℚ) : LV2_Atom_Property_Body :=
  { key := key, value := { type := uris.atom_Float, body := v } }

/-- A `time:Position` object with the given properties. -/
def position_object (uris : MetroURIs) (props : List LV2_Atom_Property_Body) :
    LV2_Atom_Object :=
  { type := uris.atom_Blank, otype := uris.time_Position, props := props }

/-- A position event at frame `t` that carries a speed only. -/
def speed_event (uris : MetroURIs) (t : ℕ) (v : ℚ) : LV2_Atom_Event :=
  { frames := t, body := position_object uris [float_prop uris uris.time_speed v] }

/-- The instance `instantiate` builds at 48 kHz with `uris0`, activated, and
with the transport rolling (`speed = 1`), written out field by field. -/
def metro48k : Metro :=
  { uris := uris0
    rate := 48000
    bpm := 120
    speed := 1
    elapsed_len := 0
    wave_offset := 0
    wave := (List.range 54).map (sine_tbl 48000)
    wave_len := 54
    attack_len := 240
    decay_len := 3600
    state := STATE_OFF }

/-- The instance `instantiate` builds at 3520 Hz with `uris0`: the wave table
is one exact sine cycle of four frames.  Here it is in mid-attack with the
transport rolling. -/
def metro3520 : Metro :=
  { uris := uris0
    rate := 3520
    bpm := 120
    speed := 1
    elapsed_len := 8
    wave_offset := 1
    wave := [0, 1 / 2, 0, -(1 / 2)]
    wave_len := 4
    attack_len := 17
    decay_len := 264
    state := STATE_ATTACK }

/-- The instance `instantiate` builds at 800 Hz with `uris0`: `wave_len` is 0
and the wave table is empty.  Here it is at the start of a beat in `Attack` with
the transport rolling, as a position event with speed 1 and bar-beat 0 leaves
it. -/
def metro800 : Metro :=
  { uris := uris0
    rate := 800
    bpm := 120
    speed := 1
    elapsed_len := 0
    wave_offset := 0
    wave := []
    wave_len := 0
    attack_len := 4
    decay_len := 60
    state := STATE_ATTACK }

/-- A position object that carries a tempo only. -/
def tempo_object (uris : MetroURIs) (v : ℚ) : LV2_Atom_Object :=
  position_object uris [float_prop uris uris.time_beatsPerMinute v]

/-- A position object that carries a bar-beat only. -/
def beat_object (uris : MetroURIs) (v : ℚ) : LV2_Atom_Object :=
  position_object uris [float_prop uris uris.time_barBeat v]

/-- The 48 kHz instance after: activation while stopped, a position event
`speed = 1`, 20000 rendered frames, and a position event `bpm = 240`. -/
def metro48k_tempo_raised : Metro :=
  update_position
    (play
      (update_position (activate { metro48k with speed := 0 }) (speed_event uris0 0 1).body)
      (List.replicate 20000 0) 0 20000).1
    (tempo_object uris0 240)

/-- An event at frame `t` whose body is a `Path` atom: not an object at all. -/
def path_event (uris : MetroURIs) (t : ℕ) : LV2_Atom_Event :=
  { frames := t, body := { type := uris.atom_Path, otype := 0, props := [] } }

/-- An event at frame `t` whose body is an object of a type other than
`time:Position` (here the type id of `atom:Resource`), carrying a speed. -/
def foreign_object_event (uris : MetroURIs) (t : ℕ) (v : ℚ) : LV2_Atom_Event :=
  { frames := t
    body :=
      { type := uris.atom_Blank, otype := uris.atom_Resource,
        props := [float_prop uris uris.time_speed v] } }

/-! ### Arithmetic of the machine types -/

theorem UINT32_MOD_pos : 0 < UINT32_MOD := by decide

theorem u32_add_of_lt {a b : ℕ} (h : a + b < UINT32_MOD) : u32_add a b = a + b :=
  Nat.mod_eq_of_lt h

theorem u32_add_lt (a b : ℕ) : u32_add a b < UINT32_MOD :=
  Nat.mod_lt _ UINT32_MOD_pos

theorem u32_sub_of_le {a b : ℕ} (hba : b ≤ a) (ha : a < UINT32_MOD) :
    u32_sub a b = a - b := by
  unfold u32_sub
  have h : a + UINT32_MOD - b = (a - b) + UINT32_MOD := by omega
  rw [h, Nat.add_mod_right]
  exact Nat.mod_eq_of_lt (by omega)

/-! ### Rounding to `float` and `double` -/

theorem two_zpow_pos (k : ℤ) : (0 : ℚ) < (2 : ℚ) ^ k := zpow_pos (by norm_num) k

theorem log2_fuel_spec (fuel n : ℕ) (hn : 0 < n) (hf : n ≤ fuel) :
    2 ^ log2_fuel fuel n ≤ n ∧ n < 2 ^ (log2_fuel fuel n + 1) := by
  induction fuel generalizing n with
  | zero => omega
  | succ fuel ih =>
    unfold log2_fuel
    by_cases h2 : 2 ≤ n
    · rw [if_pos h2]
      obtain ⟨a, b⟩ := ih (n / 2) (by omega) (by omega)
      have e1 : 2 ^ (log2_fuel fuel (n / 2) + 1) = 2 * 2 ^ log2_fuel fuel (n / 2) := pow_succ' _ _
      have e2 : 2 ^ (log2_fuel fuel (n / 2) + 1 + 1) = 2 * 2 ^ (log2_fuel fuel (n / 2) + 1) :=
        pow_succ' _ _
      omega
    · rw [if_neg h2]
      simp
      omega

/-- For positive `x` the exponent `ilog2 x` satisfies `2^e ≤ x < 2^(e+1)`. -/
theorem ilog2_spec (x : ℚ) (hx : 0 < x) :
    (2 : ℚ) ^ ilog2 x ≤ x ∧ x < (2 : ℚ) ^ (ilog2 x + 1) := by
  have hnum : 0 < x.num := Rat.num_pos.mpr hx
  have hnat : 0 < x.num.natAbs := Int.natAbs_pos.mpr (ne_of_gt hnum)
  obtain ⟨n1, n2⟩ := log2_fuel_spec x.num.natAbs x.num.natAbs hnat (le_refl _)
  obtain ⟨d1, d2⟩ := log2_fuel_spec x.den x.den x.den_pos (le_refl _)
  set ln := log2_fuel x.num.natAbs x.num.natAbs
  set ld := log2_fuel x.den x.den
  have hxe : x = (x.num.natAbs : ℚ) / (x.den : ℚ) := by
    have hz : ((x.num.natAbs : ℤ)) = x.num := Int.natAbs_of_nonneg (le_of_lt hnum)
    have hc : (x.num.natAbs : ℚ) = (x.num : ℚ) := by
      calc (x.num.natAbs : ℚ) = ((x.num.natAbs : ℤ) : ℚ) := (Int.cast_natCast _).symm
        _ = (x.num : ℚ) := by rw [hz]
    rw [hc]
    exact (Rat.num_div_den x).symm
  have hdq : (0 : ℚ) < (x.den : ℚ) := by exact_mod_cast x.den_pos
  have n1q : (2 : ℚ) ^ ln ≤ (x.num.natAbs : ℚ) := by exact_mod_cast n1
  have n2q : (x.num.natAbs : ℚ) < (2 : ℚ) ^ (ln + 1) := by exact_mod_cast n2
  have d1q : (2 : ℚ) ^ ld ≤ (x.den : ℚ) := by exact_mod_cast d1
  have d2q : (x.den : ℚ) < (2 : ℚ) ^ (ld + 1) := by exact_mod_cast d2
  have two_ne : (2 : ℚ) ≠ 0 := by norm_num
  have hup : x < (2 : ℚ) ^ (((ln : ℤ) - (ld : ℤ)) + 1) := by
    have e : (2 : ℚ) ^ (((ln : ℤ) - (ld : ℤ)) + 1) = (2 : ℚ) ^ (ln + 1) / (2 : ℚ) ^ ld := by
      rw [show ((ln : ℤ) - (ld : ℤ)) + 1 = ((ln + 1 : ℕ) : ℤ) - (ld : ℤ) by push_cast; ring,
        zpow_sub₀ two_ne, zpow_natCast, zpow_natCast]
    rw [e, hxe, div_lt_div_iff₀ hdq (pow_pos (by norm_num) _)]
    calc (x.num.natAbs : ℚ) * 2 ^ ld ≤ (x.num.natAbs : ℚ) * (x.den : ℚ) :=
          mul_le_mul_of_nonneg_left d1q (Nat.cast_nonneg _)
      _ < 2 ^ (ln + 1) * (x.den : ℚ) := mul_lt_mul_of_pos_right n2q hdq
  have hlow : (2 : ℚ) ^ (((ln : ℤ) - (ld : ℤ)) - 1) ≤ x := by
    have e : (2 : ℚ) ^ (((ln : ℤ) - (ld : ℤ)) - 1) = (2 : ℚ) ^ ln / (2 : ℚ) ^ (ld + 1) := by
      rw [show ((ln : ℤ) - (ld : ℤ)) - 1 = (ln : ℤ) - ((ld + 1 : ℕ) : ℤ) by push_cast; ring,
        zpow_sub₀ two_ne, zpow_natCast, zpow_natCast]
    rw [e, hxe, div_le_div_iff₀ (pow_pos (by norm_num) _) hdq]
    calc (2 : ℚ) ^ ln * (x.den : ℚ) ≤ (x.num.natAbs : ℚ) * (x.den : ℚ) :=
          mul_le_mul_of_nonneg_right n1q (le_of_lt hdq)
      _ ≤ (x.num.natAbs : ℚ) * 2 ^ (ld + 1) :=
          mul_le_mul_of_nonneg_left (le_of_lt d2q) (Nat.cast_nonneg _)
  unfold ilog2
  simp only []
  by_cases h : (2 : ℚ) ^ ((ln : ℤ) - (ld : ℤ)) ≤ x
  · rw [if_pos h]
    exact ⟨h, hup⟩
  · rw [if_neg h]
    refine ⟨hlow, ?_⟩
    rw [sub_add_cancel]
    exact lt_of_not_le h

theorem ilog2_unique (x : ℚ) (k : ℤ) (h1 : (2 : ℚ) ^ k ≤ x) (h2 : x < (2 : ℚ) ^ (k + 1)) :
    ilog2 x = k := by
  have hx : 0 < x := lt_of_lt_of_le (two_zpow_pos k) h1
  obtain ⟨s1, s2⟩ := ilog2_spec x hx
  have a : ilog2 x < k + 1 :=
    (zpow_lt_zpow_iff_right₀ (by norm_num : (1 : ℚ) < 2)).mp (lt_of_le_of_lt s1 h2)
  have b : k < ilog2 x + 1 :=
    (zpow_lt_zpow_iff_right₀ (by norm_num : (1 : ℚ) < 2)).mp (lt_of_le_of_lt h1 s2)
  omega

theorem ilog2_mono (x y : ℚ) (hx : 0 < x) (hxy : x ≤ y) : ilog2 x ≤ ilog2 y := by
  obtain ⟨s1, _⟩ := ilog2_spec x hx
  obtain ⟨_, t2⟩ := ilog2_spec y (lt_of_lt_of_le hx hxy)
  have a : ilog2 x < ilog2 y + 1 :=
    (zpow_lt_zpow_iff_right₀ (by norm_num : (1 : ℚ) < 2)).mp
      (lt_of_le_of_lt s1 (lt_of_le_of_lt hxy t2))
  omega

theorem round_even_le (s : ℚ) (g : ℤ) (h : s ≤ (g : ℚ)) : round_even s ≤ g := by
  unfold round_even
  have hf : Rat.floor s = ⌊s⌋ := rfl
  simp only [hf]
  have h1 : ⌊s⌋ ≤ g := by
    have := Int.floor_le s
    have h2 : ((⌊s⌋ : ℤ) : ℚ) ≤ (g : ℚ) := le_trans this h
    exact_mod_cast h2
  by_cases hs : s = (g : ℚ)
  · have hfl : ⌊s⌋ = g := by rw [hs]; exact Int.floor_intCast g
    rw [hfl, hs]
    simp
  · have hlt : s < (g : ℚ) := lt_of_le_of_ne h hs
    have h3 : ⌊s⌋ < g := Int.floor_lt.mpr hlt
    split
    · exact h1
    · split
      · omega
      · split <;> omega

theorem le_round_even (s : ℚ) (g : ℤ) (h : (g : ℚ) ≤ s) : g ≤ round_even s := by
  unfold round_even
  have hf : Rat.floor s = ⌊s⌋ := rfl
  simp only [hf]
  have h1 : g ≤ ⌊s⌋ := Int.le_floor.mpr h
  split
  · exact h1
  · split
    · omega
    · split <;> omega

theorem rnd_nonneg (p : ℕ) (emin : ℤ) (x : ℚ) (hx : 0 ≤ x) : 0 ≤ rnd p emin x := by
  unfold rnd
  have h : (0 : ℤ) ≤ round_even (x / (2 : ℚ) ^ ulp_exp p emin x) :=
    le_round_even _ 0 (by
      simp only [Int.cast_zero]
      exact div_nonneg hx (le_of_lt (two_zpow_pos _)))
  exact mul_nonneg (by exact_mod_cast h) (le_of_lt (two_zpow_pos _))

theorem ulp_exp_mono (p : ℕ) (emin : ℤ) (x y : ℚ) (hx : 0 < x) (hxy : x ≤ y) :
    ulp_exp p emin x ≤ ulp_exp p emin y := by
  unfold ulp_exp
  rw [abs_of_pos hx, abs_of_pos (lt_of_lt_of_le hx hxy)]
  have := ilog2_mono x y hx hxy
  omega

/-- A representable value is an integer multiple of its unit in the last
place. -/
theorem rnd_fixed_form (p : ℕ) (emin : ℤ) (g : ℚ) (hg : rnd p emin g = g) :
    ∃ n : ℤ, g = (n : ℚ) * (2 : ℚ) ^ ulp_exp p emin g :=
  ⟨round_even (g / (2 : ℚ) ^ ulp_exp p emin g), by
    have h := hg
    unfold rnd at h
    exact h.symm⟩

/-- Rounding does not cross a representable value from below. -/
theorem rnd_le_of_le (p : ℕ) (emin : ℤ) (x g : ℚ) (hg : rnd p emin g = g) (hg0 : 0 ≤ g)
    (hxg : x ≤ g) : rnd p emin x ≤ g := by
  by_cases hx : 0 < x
  · obtain ⟨n, hn⟩ := rnd_fixed_form p emin g hg
    have hq := ulp_exp_mono p emin x g hx hxg
    obtain ⟨k, hk⟩ := Int.eq_ofNat_of_zero_le (sub_nonneg.mpr hq)
    have two_ne : (2 : ℚ) ≠ 0 := by norm_num
    have hsplit : (2 : ℚ) ^ ulp_exp p emin g =
        (2 : ℚ) ^ k * (2 : ℚ) ^ ulp_exp p emin x := by
      rw [← zpow_natCast, ← zpow_add₀ two_ne, ← hk]
      congr 1
      ring
    have hgq : g / (2 : ℚ) ^ ulp_exp p emin x = ((n * 2 ^ k : ℤ) : ℚ) := by
      rw [div_eq_iff (ne_of_gt (two_zpow_pos _))]
      push_cast
      rw [mul_assoc, ← hsplit]
      exact hn
    have hle : x / (2 : ℚ) ^ ulp_exp p emin x ≤ ((n * 2 ^ k : ℤ) : ℚ) := by
      rw [← hgq]
      exact div_le_div_of_nonneg_right hxg (le_of_lt (two_zpow_pos _))
    have hr := round_even_le _ _ hle
    unfold rnd
    calc (round_even (x / (2 : ℚ) ^ ulp_exp p emin x) : ℚ) * (2 : ℚ) ^ ulp_exp p emin x
        ≤ ((n * 2 ^ k : ℤ) : ℚ) * (2 : ℚ) ^ ulp_exp p emin x :=
          mul_le_mul_of_nonneg_right (by exact_mod_cast hr) (le_of_lt (two_zpow_pos _))
      _ = g := by
          rw [← hgq]
          field_simp
  · have hx0 : x ≤ 0 := not_lt.mp hx
    unfold rnd
    have h : round_even (x / (2 : ℚ) ^ ulp_exp p emin x) ≤ 0 :=
      round_even_le _ 0 (by
        simp only [Int.cast_zero]
        exact div_nonpos_of_nonpos_of_nonneg hx0 (le_of_lt (two_zpow_pos _)))
    have : (round_even (x / (2 : ℚ) ^ ulp_exp p emin x) : ℚ) * (2 : ℚ) ^ ulp_exp p emin x ≤ 0 :=
      mul_nonpos_of_nonpos_of_nonneg (by exact_mod_cast h) (le_of_lt (two_zpow_pos _))
    linarith

/-- Rounding does not cross a representable value from above. -/
theorem le_rnd_of_le (p : ℕ) (emin : ℤ) (x g : ℚ) (hp : 0 < p) (hg : rnd p emin g = g)
    (hg0 : 0 ≤ g) (hgx : g ≤ x) : g ≤ rnd p emin x := by
  by_cases hgpos : 0 < g
  · have hx : 0 < x := lt_of_lt_of_le hgpos hgx
    obtain ⟨n, hn⟩ := rnd_fixed_form p emin g hg
    have hq := ulp_exp_mono p emin g x hgpos hgx
    have two_ne : (2 : ℚ) ≠ 0 := by norm_num
    by_cases heq : ulp_exp p emin g = ulp_exp p emin x
    · have hle : ((n : ℤ) : ℚ) ≤ x / (2 : ℚ) ^ ulp_exp p emin x := by
        rw [le_div_iff₀ (two_zpow_pos _), ← heq, ← hn]
        exact hgx
      have hr := le_round_even _ _ hle
      unfold rnd
      calc g = (n : ℚ) * (2 : ℚ) ^ ulp_exp p emin x := by rw [← heq]; exact hn
        _ ≤ (round_even (x / (2 : ℚ) ^ ulp_exp p emin x) : ℚ) * (2 : ℚ) ^ ulp_exp p emin x :=
          mul_le_mul_of_nonneg_right (by exact_mod_cast hr) (le_of_lt (two_zpow_pos _))
    · have hlt : ulp_exp p emin g < ulp_exp p emin x := lt_of_le_of_ne hq heq
      have hlog : ilog2 g < ilog2 x := by
        unfold ulp_exp at hlt
        rw [abs_of_pos hgpos, abs_of_pos hx] at hlt
        omega
      have hqx : ulp_exp p emin x = ilog2 x - ((p : ℤ) - 1) := by
        unfold ulp_exp at hlt ⊢
        rw [abs_of_pos hgpos, abs_of_pos hx] at hlt
        rw [abs_of_pos hx]
        omega
      obtain ⟨_, g2⟩ := ilog2_spec g hgpos
      obtain ⟨x1, _⟩ := ilog2_spec x hx
      have hg_lt : g < (2 : ℚ) ^ ilog2 x :=
        lt_of_lt_of_le g2 (zpow_le_zpow_right₀ (by norm_num) (by omega))
      have hpow : (2 : ℚ) ^ ilog2 x = ((2 ^ (p - 1) : ℤ) : ℚ) * (2 : ℚ) ^ ulp_exp p emin x := by
        rw [hqx]
        push_cast
        rw [← zpow_natCast, ← zpow_add₀ two_ne]
        congr 1
        have : ((p - 1 : ℕ) : ℤ) = (p : ℤ) - 1 := by omega
        rw [this]
        ring
      have hle : ((2 ^ (p - 1) : ℤ) : ℚ) ≤ x / (2 : ℚ) ^ ulp_exp p emin x := by
        rw [le_div_iff₀ (two_zpow_pos _), ← hpow]
        exact x1
      have hr := le_round_even _ _ hle
      unfold rnd
      calc g ≤ (2 : ℚ) ^ ilog2 x := le_of_lt hg_lt
        _ = ((2 ^ (p - 1) : ℤ) : ℚ) * (2 : ℚ) ^ ulp_exp p emin x := hpow
        _ ≤ (round_even (x / (2 : ℚ) ^ ulp_exp p emin x) : ℚ) * (2 : ℚ) ^ ulp_exp p emin x :=
          mul_le_mul_of_nonneg_right (by exact_mod_cast hr) (le_of_lt (two_zpow_pos _))
  · have hg00 : g = 0 := le_antisymm (not_lt.mp hgpos) hg0
    rw [hg00]
    exact rnd_nonneg p emin x (by rw [hg00] at hgx; exact hgx)


theorem ilog2_half (x : ℚ) (hx : 0 < x) : ilog2 (x / 2) = ilog2 x - 1 := by
  obtain ⟨s1, s2⟩ := ilog2_spec x hx
  have two_ne : (2 : ℚ) ≠ 0 := by norm_num
  apply ilog2_unique
  · rw [zpow_sub_one₀ two_ne, div_eq_mul_inv]
    exact mul_le_mul_of_nonneg_right s1 (by norm_num)
  · rw [sub_add_cancel, div_lt_iff₀ (by norm_num : (0 : ℚ) < 2), ← zpow_add_one₀ two_ne]
    exact s2

/-- Halving is exact above the subnormal range. -/
theorem rnd_half (p : ℕ) (emin : ℤ) (x : ℚ) (hx : 0 < x)
    (hq : emin < ilog2 x - ((p : ℤ) - 1)) : rnd p emin (x / 2) = rnd p emin x / 2 := by
  have two_ne : (2 : ℚ) ≠ 0 := by norm_num
  have hx2 : 0 < x / 2 := by positivity
  have hu : ulp_exp p emin (x / 2) = ulp_exp p emin x - 1 := by
    unfold ulp_exp
    rw [abs_of_pos hx, abs_of_pos hx2, ilog2_half x hx]
    omega
  unfold rnd
  rw [hu, zpow_sub_one₀ two_ne]
  have e : x / 2 / ((2 : ℚ) ^ ulp_exp p emin x * 2⁻¹) = x / (2 : ℚ) ^ ulp_exp p emin x := by
    have := two_zpow_pos (ulp_exp p emin x)
    field_simp
  rw [e]
  ring

/-- A representable value divided by a power of two is representable, above
the subnormal range. -/
theorem rnd_div_two_pow (p : ℕ) (emin : ℤ) (x : ℚ) (j : ℕ) (hx : 0 < x)
    (hfix : rnd p emin x = x) (hq : emin + (j : ℤ) ≤ ilog2 x - ((p : ℤ) - 1)) :
    rnd p emin (x / (2 : ℚ) ^ j) = x / (2 : ℚ) ^ j ∧ ilog2 (x / (2 : ℚ) ^ j) = ilog2 x - (j : ℤ) := by
  induction j with
  | zero => simp [hfix]
  | succ j ih =>
    obtain ⟨a1, a2⟩ := ih (by push_cast at hq; omega)
    have hpos : 0 < x / (2 : ℚ) ^ j := by positivity
    have e : x / (2 : ℚ) ^ (j + 1) = x / (2 : ℚ) ^ j / 2 := by
      rw [pow_succ, div_div]
    rw [e]
    refine ⟨?_, ?_⟩
    · rw [rnd_half p emin _ hpos (by rw [a2]; push_cast at hq; omega), a1]
    · rw [ilog2_half _ hpos, a2]
      push_cast
      ring

theorem ilog2_two : ilog2 2 = 1 := by decide!
theorem f32_zero : f32 0 = 0 := by decide!
theorem f32_one : f32 1 = 1 := by decide!
theorem f64_one : f64 1 = 1 := by decide!
theorem f32_half : f32 (60 / 120) = 1 / 2 := by decide!

theorem f64_nonneg (x : ℚ) (hx : 0 ≤ x) : 0 ≤ f64 x := rnd_nonneg 53 (-1074) x hx

/-- Rounding to `float` is monotone against a `float` value below. -/
theorem le_f32_of_le (x g : ℚ) (hg : f32 g = g) (hg0 : 0 ≤ g) (h : g ≤ x) : g ≤ f32 x :=
  le_rnd_of_le 24 (-149) x g (by norm_num) hg hg0 h

/-- Rounding to `double` is monotone against a `double` value above. -/
theorem f64_le_of_le (x g : ℚ) (hg : f64 g = g) (hg0 : 0 ≤ g) (h : x ≤ g) : f64 x ≤ g :=
  rnd_le_of_le 53 (-1074) x g hg hg0 h

/-- Rounding to `double` is monotone against a `double` value below. -/
theorem le_f64_of_le (x g : ℚ) (hg : f64 g = g) (hg0 : 0 ≤ g) (h : g ≤ x) : g ≤ f64 x :=
  le_rnd_of_le 53 (-1074) x g (by norm_num) hg hg0 h

/-! ### The instance after `play` -/

theorem play_stopped (self : Metro) (output : List ℚ) (begin end_ : ℕ)
    (h : self.speed = 0) :
    play self output begin end_ = (self, memset_zero output (u32_sub end_ begin)) := by
  simp [play, h]

theorem play_playing (self : Metro) (output : List ℚ) (begin end_ : ℕ)
    (h : self.speed ≠ 0) :
    play self output begin end_ =
      play_loop (frames_per_beat self) (end_ - begin) begin self output := by
  simp [play, h]

/-- The instances `metro48k` and `metro3520` are what `instantiate` and
`activate` produce, up to the transport fields set by position events and by
rendering; `metro800`, and its variants in `Off` used below, are reached from
`instantiate` and `activate` by one position event, without rendering a frame. -/
theorem instantiate_concrete :
    (instantiate 48000 (some uris0) (sine_tbl 48000)).map
        (fun s => { activate s with speed := 1 }) = some metro48k ∧
    (instantiate 3520 (some uris0) (sine_tbl 3520)).map
        (fun s => { activate s with
                      speed := 1, elapsed_len := 8, wave_offset := 1,
                      state := STATE_ATTACK }) = some metro3520 ∧
    (instantiate 800 (some uris0) (sine_tbl 800)).map
        (fun s => update_position (activate s)
          (position_object uris0
            [float_prop uris0 uris0.time_speed 1, float_prop uris0 uris0.time_barBeat 0])) =
      some metro800 ∧
    (instantiate 800 (some uris0) (sine_tbl 800)).map
        (fun s => update_position (activate s) (speed_event uris0 0 1).body) =
      some { metro800 with state := STATE_OFF } ∧
    (instantiate 800 (some uris0) (sine_tbl 800)).map
        (fun s => update_position (activate s)
          (position_object uris0
            [float_prop uris0 uris0.time_speed 1,
              float_prop uris0 uris0.time_barBeat (-(1 / 2 ^ 30))])) =
      some { metro800 with elapsed_len := 400, state := STATE_OFF } := by
  decide!

/-! ### The loop of `play` -/

theorem f2u32_lt (x : ℚ) : f2u32 x < UINT32_MOD := by
  unfold f2u32
  have hpos : (0 : ℤ) < (UINT32_MOD : ℤ) := by exact_mod_cast UINT32_MOD_pos
  have h1 := Int.emod_lt_of_pos (x.num.tdiv (x.den : ℤ)) hpos
  have h2 := Int.emod_nonneg (x.num.tdiv (x.den : ℤ)) (ne_of_gt hpos)
  omega

theorem frames_per_beat_lt (self : Metro) : frames_per_beat self < UINT32_MOD :=
  f2u32_lt _

theorem play_loop_zero (fpb i : ℕ) (self : Metro) (output : List ℚ) :
    play_loop fpb 0 i self output = (self, output) := rfl

theorem play_loop_succ (fpb n i : ℕ) (self : Metro) (output : List ℚ) :
    play_loop fpb (n + 1) i self output =
      play_loop fpb n (i + 1) (play_frame fpb self).1
        (output.set i (play_frame fpb self).2) := rfl

/-- Rendering `m + n` frames is rendering `m` frames and then `n` more. -/
theorem play_loop_add (fpb m n i : ℕ) (self : Metro) (output : List ℚ) :
    play_loop fpb (m + n) i self output =
      play_loop fpb n (i + m) (play_loop fpb m i self output).1
        (play_loop fpb m i self output).2 := by
  induction m generalizing i self output with
  | zero => simp [play_loop_zero]
  | succ m ih =>
    have h : m + 1 + n = (m + n) + 1 := by omega
    rw [h, play_loop_succ, play_loop_succ, ih]
    have h2 : i + 1 + m = i + (m + 1) := by omega
    rw [h2]

/-- The instance after the loop does not depend on the buffer or the index. -/
theorem play_loop_fst (fpb n i j : ℕ) (self : Metro) (output output2 : List ℚ) :
    (play_loop fpb n i self output).1 = (play_loop fpb n j self output2).1 := by
  induction n generalizing i j self output output2 with
  | zero => rfl
  | succ n ih =>
    rw [play_loop_succ, play_loop_succ]
    exact ih _ _ _ _ _

theorem play_loop_length (fpb n i : ℕ) (self : Metro) (output : List ℚ) :
    (play_loop fpb n i self output).2.length = output.length := by
  induction n generalizing i self output with
  | zero => rfl
  | succ n ih => rw [play_loop_succ, ih, List.length_set]

/-- The loop writes no sample outside `[i, i + n)`. -/
theorem play_loop_getD_outside (fpb n i j : ℕ) (self : Metro) (output : List ℚ)
    (h : j < i ∨ i + n ≤ j) :
    (play_loop fpb n i self output).2.getD j 0 = output.getD j 0 := by
  induction n generalizing i self output with
  | zero => rfl
  | succ n ih =>
    rw [play_loop_succ, ih _ _ _ (by omega)]
    have hij : i ≠ j := by omega
    simp [List.getD_eq_getElem?_getD, List.getElem?_set, hij]

/-- The sample the loop leaves at index `i + k` is the one rendered from the
instance reached after `k` frames. -/
theorem play_loop_getD_inside (fpb n i k : ℕ) (self : Metro) (output : List ℚ)
    (hk : k < n) (hlen : i + k < output.length) :
    (play_loop fpb n i self output).2.getD (i + k) 0 =
      (play_frame fpb (play_loop fpb k i self output).1).2 := by
  have hn : n = k + ((n - k - 1) + 1) := by omega
  rw [hn, play_loop_add, play_loop_succ, play_loop_getD_outside _ _ _ _ _ _ (by omega)]
  have hl : i + k < (play_loop fpb k i self output).2.length := by
    rw [play_loop_length]; exact hlen
  simp [List.getD_eq_getElem?_getD, List.getElem?_set, hl]

/-- A frame rendered in `Off` before the beat is complete: the sample is zero,
the state stays `Off` and `elapsed_len` grows by one. -/
theorem play_frame_off (fpb : ℕ) (self : Metro) (hoff : self.state = STATE_OFF)
    (h : self.elapsed_len + 1 < fpb) (hfpb : fpb ≤ UINT32_MOD) :
    (play_frame fpb self).1.state = STATE_OFF ∧
    (play_frame fpb self).1.elapsed_len = self.elapsed_len + 1 ∧
    (play_frame fpb self).2 = 0 := by
  have he : u32_add self.elapsed_len 1 = self.elapsed_len + 1 := u32_add_of_lt (by omega)
  have hne : ¬ (self.elapsed_len + 1 = fpb) := by omega
  simp [play_frame, play_sample, play_switch, hoff, he, hne]

/-- The frame that completes the beat starts a new one. -/
theorem play_frame_wrap (fpb : ℕ) (self : Metro)
    (h : self.elapsed_len + 1 = fpb) (hfpb : fpb < UINT32_MOD) :
    (play_frame fpb self).1.state = STATE_ATTACK ∧
    (play_frame fpb self).1.elapsed_len = 0 := by
  have he : u32_add self.elapsed_len 1 = self.elapsed_len + 1 := u32_add_of_lt (by omega)
  simp [play_frame, he, h]

/-- Frames rendered in `Off` short of the end of the beat. -/
theorem play_loop_off (fpb n i : ℕ) (self : Metro) (output : List ℚ)
    (hoff : self.state = STATE_OFF) (h : self.elapsed_len + n < fpb)
    (hfpb : fpb ≤ UINT32_MOD) :
    (play_loop fpb n i self output).1.state = STATE_OFF ∧
    (play_loop fpb n i self output).1.elapsed_len = self.elapsed_len + n ∧
    ∀ j, i ≤ j → j < i + n → (play_loop fpb n i self output).2.getD j 0 = 0 := by
  induction n generalizing i self output with
  | zero =>
    refine ⟨hoff, rfl, ?_⟩
    intro j h1 h2
    omega
  | succ n ih =>
    obtain ⟨f1, f2, f3⟩ := play_frame_off fpb self hoff (by omega) hfpb
    rw [play_loop_succ]
    obtain ⟨g1, g2, g3⟩ := ih (i + 1) (play_frame fpb self).1
      (output.set i (play_frame fpb self).2) f1 (by rw [f2]; omega)
    refine ⟨g1, by rw [g2, f2]; omega, ?_⟩
    intro j h1 h2
    by_cases hj : j = i
    · subst hj
      rw [play_loop_getD_outside _ _ _ _ _ _ (by omega), f3]
      simp [List.getD_eq_getElem?_getD, List.getElem?_set]
      split <;> simp
    · exact g3 j (by omega) (by omega)

/-! ### The event loop and the stopped transport -/

/-- C1 (code evaluated at the failing input): on the stopped 48 kHz instance,
with the events `speed = 1` at frame 0 and `speed = 0` at frame 50 in a buffer
of 100 frames, `run` leaves `speed = 1`: the event at frame 50 is stepped over,
and the whole result equals that of the buffer holding the first event only. -/
theorem run_steps_over_second_event :
    (run { metro48k with speed := 0 } (List.replicate 100 0)
        [speed_event uris0 0 1, speed_event uris0 50 0] 100).1.speed = 1 ∧
    run { metro48k with speed := 0 } (List.replicate 100 0)
        [speed_event uris0 0 1, speed_event uris0 50 0] 100 =
      run { metro48k with speed := 0 } (List.replicate 100 0)
        [speed_event uris0 0 1] 100 := by
  decide!

/-- C2 (code evaluated at the failing input): a stopped `play` over the span
`[2, 4)` of a four-frame buffer of ones zeroes the samples 0 and 1 and leaves
the samples 2 and 3 as they were. -/
theorem play_stopped_zeroes_buffer_start :
    (play { metro48k with speed := 0 } [1, 1, 1, 1] 2 4).2 = [0, 0, 1, 1] := by
  decide!

/-- C3: while the transport is stopped (`speed = 0`), a call of `play` over any
span returns the instance unchanged, and so does any run of such calls. -/
theorem play_stopped_instance_unchanged (self : Metro) (h : self.speed = 0) :
    (∀ (output : List ℚ) (begin end_ : ℕ), (play self output begin end_).1 = self) ∧
    (∀ (output : List ℚ) (spans : List (ℕ × ℕ)), (play_spans self output spans).1 = self) := by
  have h1 : ∀ (output : List ℚ) (begin end_ : ℕ), (play self output begin end_).1 = self := by
    intro output begin end_
    rw [play_stopped self output begin end_ h]
  refine ⟨h1, ?_⟩
  intro output spans
  induction spans generalizing output with
  | nil => rfl
  | cons sp rest ih =>
    simp only [play_spans]
    rw [h1]
    exact ih _

/-- Witness of C3: three stopped calls of different sizes on the 48 kHz
instance in mid-beat. -/
theorem play_stopped_instance_unchanged_witness :
    ({ metro48k with speed := 0, elapsed_len := 100, state := STATE_ATTACK } : Metro).speed = 0 ∧
    (play_spans { metro48k with speed := 0, elapsed_len := 100, state := STATE_ATTACK }
        (List.replicate 64 1) [(0, 10), (10, 64), (0, 64)]).1 =
      { metro48k with speed := 0, elapsed_len := 100, state := STATE_ATTACK } :=
  ⟨rfl,
    (play_stopped_instance_unchanged
      { metro48k with speed := 0, elapsed_len := 100, state := STATE_ATTACK } rfl).2
      (List.replicate 64 1) [(0, 10), (10, 64), (0, 64)]⟩

/-- C4 (code evaluated at the failing input): at 48 kHz and 120 BPM, rolling
from `Off` with `elapsed_len = 0`, a buffer of 100 frames that held ones and
one event `speed = 0` at frame 50: after `run` the samples 0..49 are zero, the
samples 50..99 still hold the ones that were there before the call, and
`elapsed_len` is 50. -/
theorem run_stop_event_leaves_stale_tail :
    (run metro48k (List.replicate 100 1) [speed_event uris0 50 0] 100).2 =
      List.replicate 50 0 ++ List.replicate 50 1 ∧
    (run metro48k (List.replicate 100 1) [speed_event uris0 50 0] 100).1.elapsed_len = 50 ∧
    (run metro48k (List.replicate 100 1) [speed_event uris0 50 0] 100).1.speed = 0 := by
  decide!

/-! ### Fields that rendering and updates leave alone -/

@[simp] theorem play_frame_uris (fpb : ℕ) (self : Metro) :
    (play_frame fpb self).1.uris = self.uris := by
  by_cases h : u32_add self.elapsed_len 1 = fpb <;> simp [play_frame, h]

@[simp] theorem play_frame_rate (fpb : ℕ) (self : Metro) :
    (play_frame fpb self).1.rate = self.rate := by
  by_cases h : u32_add self.elapsed_len 1 = fpb <;> simp [play_frame, h]

@[simp] theorem play_frame_bpm (fpb : ℕ) (self : Metro) :
    (play_frame fpb self).1.bpm = self.bpm := by
  by_cases h : u32_add self.elapsed_len 1 = fpb <;> simp [play_frame, h]

@[simp] theorem play_frame_speed (fpb : ℕ) (self : Metro) :
    (play_frame fpb self).1.speed = self.speed := by
  by_cases h : u32_add self.elapsed_len 1 = fpb <;> simp [play_frame, h]

@[simp] theorem play_frame_wave (fpb : ℕ) (self : Metro) :
    (play_frame fpb self).1.wave = self.wave := by
  by_cases h : u32_add self.elapsed_len 1 = fpb <;> simp [play_frame, h]

@[simp] theorem play_frame_wave_len (fpb : ℕ) (self : Metro) :
    (play_frame fpb self).1.wave_len = self.wave_len := by
  by_cases h : u32_add self.elapsed_len 1 = fpb <;> simp [play_frame, h]

@[simp] theorem play_frame_attack_len (fpb : ℕ) (self : Metro) :
    (play_frame fpb self).1.attack_len = self.attack_len := by
  by_cases h : u32_add self.elapsed_len 1 = fpb <;> simp [play_frame, h]

@[simp] theorem play_frame_decay_len (fpb : ℕ) (self : Metro) :
    (play_frame fpb self).1.decay_len = self.decay_len := by
  by_cases h : u32_add self.elapsed_len 1 = fpb <;> simp [play_frame, h]

@[simp] theorem play_loop_uris (fpb n i : ℕ) (self : Metro) (output : List ℚ) :
    (play_loop fpb n i self output).1.uris = self.uris := by
  induction n generalizing i self output with
  | zero => rfl
  | succ n ih => rw [play_loop_succ, ih]; simp

@[simp] theorem play_loop_rate (fpb n i : ℕ) (self : Metro) (output : List ℚ) :
    (play_loop fpb n i self output).1.rate = self.rate := by
  induction n generalizing i self output with
  | zero => rfl
  | succ n ih => rw [play_loop_succ, ih]; simp

@[simp] theorem play_loop_bpm (fpb n i : ℕ) (self : Metro) (output : List ℚ) :
    (play_loop fpb n i self output).1.bpm = self.bpm := by
  induction n generalizing i self output with
  | zero => rfl
  | succ n ih => rw [play_loop_succ, ih]; simp

@[simp] theorem play_loop_speed (fpb n i : ℕ) (self : Metro) (output : List ℚ) :
    (play_loop fpb n i self output).1.speed = self.speed := by
  induction n generalizing i self output with
  | zero => rfl
  | succ n ih => rw [play_loop_succ, ih]; simp

@[simp] theorem play_loop_wave (fpb n i : ℕ) (self : Metro) (output : List ℚ) :
    (play_loop fpb n i self output).1.wave = self.wave := by
  induction n generalizing i self output with
  | zero => rfl
  | succ n ih => rw [play_loop_succ, ih]; simp

@[simp] theorem play_loop_wave_len (fpb n i : ℕ) (self : Metro) (output : List ℚ) :
    (play_loop fpb n i self output).1.wave_len = self.wave_len := by
  induction n generalizing i self output with
  | zero => rfl
  | succ n ih => rw [play_loop_succ, ih]; simp

@[simp] theorem play_loop_attack_len (fpb n i : ℕ) (self : Metro) (output : List ℚ) :
    (play_loop fpb n i self output).1.attack_len = self.attack_len := by
  induction n generalizing i self output with
  | zero => rfl
  | succ n ih => rw [play_loop_succ, ih]; simp

@[simp] theorem play_loop_decay_len (fpb n i : ℕ) (self : Metro) (output : List ℚ) :
    (play_loop fpb n i self output).1.decay_len = self.decay_len := by
  induction n generalizing i self output with
  | zero => rfl
  | succ n ih => rw [play_loop_succ, ih]; simp

@[simp] theorem play_uris (self : Metro) (output : List ℚ) (begin end_ : ℕ) :
    (play self output begin end_).1.uris = self.uris := by
  by_cases h : self.speed = 0
  · rw [play_stopped self output begin end_ h]
  · rw [play_playing self output begin end_ h]; simp

@[simp] theorem play_rate (self : Metro) (output : List ℚ) (begin end_ : ℕ) :
    (play self output begin end_).1.rate = self.rate := by
  by_cases h : self.speed = 0
  · rw [play_stopped self output begin end_ h]
  · rw [play_playing self output begin end_ h]; simp

@[simp] theorem play_bpm (self : Metro) (output : List ℚ) (begin end_ : ℕ) :
    (play self output begin end_).1.bpm = self.bpm := by
  by_cases h : self.speed = 0
  · rw [play_stopped self output begin end_ h]
  · rw [play_playing self output begin end_ h]; simp

@[simp] theorem play_speed (self : Metro) (output : List ℚ) (begin end_ : ℕ) :
    (play self output begin end_).1.speed = self.speed := by
  by_cases h : self.speed = 0
  · rw [play_stopped self output begin end_ h]
  · rw [play_playing self output begin end_ h]; simp

@[simp] theorem play_wave (self : Metro) (output : List ℚ) (begin end_ : ℕ) :
    (play self output begin end_).1.wave = self.wave := by
  by_cases h : self.speed = 0
  · rw [play_stopped self output begin end_ h]
  · rw [play_playing self output begin end_ h]; simp

@[simp] theorem play_wave_len (self : Metro) (output : List ℚ) (begin end_ : ℕ) :
    (play self output begin end_).1.wave_len = self.wave_len := by
  by_cases h : self.speed = 0
  · rw [play_stopped self output begin end_ h]
  · rw [play_playing self output begin end_ h]; simp

@[simp] theorem play_attack_len (self : Metro) (output : List ℚ) (begin end_ : ℕ) :
    (play self output begin end_).1.attack_len = self.attack_len := by
  by_cases h : self.speed = 0
  · rw [play_stopped self output begin end_ h]
  · rw [play_playing self output begin end_ h]; simp

@[simp] theorem play_decay_len (self : Metro) (output : List ℚ) (begin end_ : ℕ) :
    (play self output begin end_).1.decay_len = self.decay_len := by
  by_cases h : self.speed = 0
  · rw [play_stopped self output begin end_ h]
  · rw [play_playing self output begin end_ h]; simp

@[simp] theorem update_bpm_uris (self : Metro) (o : Option LV2_Atom) :
    (update_bpm self o).uris = self.uris := by
  unfold update_bpm
  cases o with
  | none => rfl
  | some a => by_cases h : a.type = self.uris.atom_Float <;> simp [h]

@[simp] theorem update_bpm_rate (self : Metro) (o : Option LV2_Atom) :
    (update_bpm self o).rate = self.rate := by
  unfold update_bpm
  cases o with
  | none => rfl
  | some a => by_cases h : a.type = self.uris.atom_Float <;> simp [h]

@[simp] theorem update_bpm_speed (self : Metro) (o : Option LV2_Atom) :
    (update_bpm self o).speed = self.speed := by
  unfold update_bpm
  cases o with
  | none => rfl
  | some a => by_cases h : a.type = self.uris.atom_Float <;> simp [h]

@[simp] theorem update_bpm_elapsed_len (self : Metro) (o : Option LV2_Atom) :
    (update_bpm self o).elapsed_len = self.elapsed_len := by
  unfold update_bpm
  cases o with
  | none => rfl
  | some a => by_cases h : a.type = self.uris.atom_Float <;> simp [h]

@[simp] theorem update_bpm_wave_offset (self : Metro) (o : Option LV2_Atom) :
    (update_bpm self o).wave_offset = self.wave_offset := by
  unfold update_bpm
  cases o with
  | none => rfl
  | some a => by_cases h : a.type = self.uris.atom_Float <;> simp [h]

@[simp] theorem update_bpm_wave (self : Metro) (o : Option LV2_Atom) :
    (update_bpm self o).wave = self.wave := by
  unfold update_bpm
  cases o with
  | none => rfl
  | some a => by_cases h : a.type = self.uris.atom_Float <;> simp [h]

@[simp] theorem update_bpm_wave_len (self : Metro) (o : Option LV2_Atom) :
    (update_bpm self o).wave_len = self.wave_len := by
  unfold update_bpm
  cases o with
  | none => rfl
  | some a => by_cases h : a.type = self.uris.atom_Float <;> simp [h]

@[simp] theorem update_bpm_attack_len (self : Metro) (o : Option LV2_Atom) :
    (update_bpm self o).attack_len = self.attack_len := by
  unfold update_bpm
  cases o with
  | none => rfl
  | some a => by_cases h : a.type = self.uris.atom_Float <;> simp [h]

@[simp] theorem update_bpm_decay_len (self : Metro) (o : Option LV2_Atom) :
    (update_bpm self o).decay_len = self.decay_len := by
  unfold update_bpm
  cases o with
  | none => rfl
  | some a => by_cases h : a.type = self.uris.atom_Float <;> simp [h]

@[simp] theorem update_bpm_state (self : Metro) (o : Option LV2_Atom) :
    (update_bpm self o).state = self.state := by
  unfold update_bpm
  cases o with
  | none => rfl
  | some a => by_cases h : a.type = self.uris.atom_Float <;> simp [h]

@[simp] theorem update_speed_uris (self : Metro) (o : Option LV2_Atom) :
    (update_speed self o).uris = self.uris := by
  unfold update_speed
  cases o with
  | none => rfl
  | some a => by_cases h : a.type = self.uris.atom_Float <;> simp [h]

@[simp] theorem update_speed_rate (self : Metro) (o : Option LV2_Atom) :
    (update_speed self o).rate = self.rate := by
  unfold update_speed
  cases o with
  | none => rfl
  | some a => by_cases h : a.type = self.uris.atom_Float <;> simp [h]

@[simp] theorem update_speed_bpm (self : Metro) (o : Option LV2_Atom) :
    (update_speed self o).bpm = self.bpm := by
  unfold update_speed
  cases o with
  | none => rfl
  | some a => by_cases h : a.type = self.uris.atom_Float <;> simp [h]

@[simp] theorem update_speed_elapsed_len (self : Metro) (o : Option LV2_Atom) :
    (update_speed self o).elapsed_len = self.elapsed_len := by
  unfold update_speed
  cases o with
  | none => rfl
  | some a => by_cases h : a.type = self.uris.atom_Float <;> simp [h]

@[simp] theorem update_speed_wave_offset (self : Metro) (o : Option LV2_Atom) :
    (update_speed self o).wave_offset = self.wave_offset := by
  unfold update_speed
  cases o with
  | none => rfl
  | some a => by_cases h : a.type = self.uris.atom_Float <;> simp [h]

@[simp] theorem update_speed_wave (self : Metro) (o : Option LV2_Atom) :
    (update_speed self o).wave = self.wave := by
  unfold update_speed
  cases o with
  | none => rfl
  | some a => by_cases h : a.type = self.uris.atom_Float <;> simp [h]

@[simp] theorem update_speed_wave_len (self : Metro) (o : Option LV2_Atom) :
    (update_speed self o).wave_len = self.wave_len := by
  unfold update_speed
  cases o with
  | none => rfl
  | some a => by_cases h : a.type = self.uris.atom_Float <;> simp [h]

@[simp] theorem update_speed_attack_len (self : Metro) (o : Option LV2_Atom) :
    (update_speed self o).attack_len = self.attack_len := by
  unfold update_speed
  cases o with
  | none => rfl
  | some a => by_cases h : a.type = self.uris.atom_Float <;> simp [h]

@[simp] theorem update_speed_decay_len (self : Metro) (o : Option LV2_Atom) :
    (update_speed self o).decay_len = self.decay_len := by
  unfold update_speed
  cases o with
  | none => rfl
  | some a => by_cases h : a.type = self.uris.atom_Float <;> simp [h]

@[simp] theorem update_speed_state (self : Metro) (o : Option LV2_Atom) :
    (update_speed self o).state = self.state := by
  unfold update_speed
  cases o with
  | none => rfl
  | some a => by_cases h : a.type = self.uris.atom_Float <;> simp [h]

@[simp] theorem update_beat_uris (self : Metro) (o : Option LV2_Atom) :
    (update_beat self o).uris = self.uris := by
  unfold update_beat
  cases o with
  | none => rfl
  | some a =>
    by_cases h : a.type = self.uris.atom_Float
    · simp only [h, if_true]
      split
      · rfl
      · split <;> rfl
    · simp [h]

@[simp] theorem update_beat_rate (self : Metro) (o : Option LV2_Atom) :
    (update_beat self o).rate = self.rate := by
  unfold update_beat
  cases o with
  | none => rfl
  | some a =>
    by_cases h : a.type = self.uris.atom_Float
    · simp only [h, if_true]
      split
      · rfl
      · split <;> rfl
    · simp [h]

@[simp] theorem update_beat_bpm (self : Metro) (o : Option LV2_Atom) :
    (update_beat self o).bpm = self.bpm := by
  unfold update_beat
  cases o with
  | none => rfl
  | some a =>
    by_cases h : a.type = self.uris.atom_Float
    · simp only [h, if_true]
      split
      · rfl
      · split <;> rfl
    · simp [h]

@[simp] theorem update_beat_speed (self : Metro) (o : Option LV2_Atom) :
    (update_beat self o).speed = self.speed := by
  unfold update_beat
  cases o with
  | none => rfl
  | some a =>
    by_cases h : a.type = self.uris.atom_Float
    · simp only [h, if_true]
      split
      · rfl
      · split <;> rfl
    · simp [h]

@[simp] theorem update_beat_wave_offset (self : Metro) (o : Option LV2_Atom) :
    (update_beat self o).wave_offset = self.wave_offset := by
  unfold update_beat
  cases o with
  | none => rfl
  | some a =>
    by_cases h : a.type = self.uris.atom_Float
    · simp only [h, if_true]
      split
      · rfl
      · split <;> rfl
    · simp [h]

@[simp] theorem update_beat_wave (self : Metro) (o : Option LV2_Atom) :
    (update_beat self o).wave = self.wave := by
  unfold update_beat
  cases o with
  | none => rfl
  | some a =>
    by_cases h : a.type = self.uris.atom_Float
    · simp only [h, if_true]
      split
      · rfl
      · split <;> rfl
    · simp [h]

@[simp] theorem update_beat_wave_len (self : Metro) (o : Option LV2_Atom) :
    (update_beat self o).wave_len = self.wave_len := by
  unfold update_beat
  cases o with
  | none => rfl
  | some a =>
    by_cases h : a.type = self.uris.atom_Float
    · simp only [h, if_true]
      split
      · rfl
      · split <;> rfl
    · simp [h]

@[simp] theorem update_beat_attack_len (self : Metro) (o : Option LV2_Atom) :
    (update_beat self o).attack_len = self.attack_len := by
  unfold update_beat
  cases o with
  | none => rfl
  | some a =>
    by_cases h : a.type = self.uris.atom_Float
    · simp only [h, if_true]
      split
      · rfl
      · split <;> rfl
    · simp [h]

@[simp] theorem update_beat_decay_len (self : Metro) (o : Option LV2_Atom) :
    (update_beat self o).decay_len = self.decay_len := by
  unfold update_beat
  cases o with
  | none => rfl
  | some a =>
    by_cases h : a.type = self.uris.atom_Float
    · simp only [h, if_true]
      split
      · rfl
      · split <;> rfl
    · simp [h]

theorem update_bpm_bpm (self : Metro) (obj : LV2_Atom_Object) :
    (update_bpm self (lv2_atom_object_get obj self.uris.time_beatsPerMinute)).bpm =
      tempo_after self obj := by
  unfold update_bpm tempo_after
  cases lv2_atom_object_get obj self.uris.time_beatsPerMinute with
  | none => rfl
  | some a => by_cases h : a.type = self.uris.atom_Float <;> simp [h]

theorem update_speed_speed (self self2 : Metro) (obj : LV2_Atom_Object)
    (hu : self2.uris = self.uris) (hs : self2.speed = self.speed) :
    (update_speed self2 (lv2_atom_object_get obj self.uris.time_speed)).speed =
      speed_after self obj := by
  unfold update_speed speed_after
  cases lv2_atom_object_get obj self.uris.time_speed with
  | none => exact hs
  | some a => by_cases h : a.type = self.uris.atom_Float <;> simp [h, hu, hs]

/-- A `Float` bar-beat sets `elapsed_len` from the fractional beat and the tempo
in effect, and the state from the segment `elapsed_len` falls into. -/
theorem update_beat_some (self : Metro) (a : LV2_Atom) (ht : a.type = self.uris.atom_Float) :
    (update_beat self (some a)).elapsed_len =
      f2u32 (f32 (f32 (a.body - floorf a.body) *
        f32 (f64 (f32 (60 / self.bpm) * self.rate)))) ∧
    (update_beat self (some a)).state =
      segment_of self (f2u32 (f32 (f32 (a.body - floorf a.body) *
        f32 (f64 (f32 (60 / self.bpm) * self.rate))))) := by
  unfold update_beat segment_of
  simp only [ht, if_true]
  split
  · simp
  · split <;> simp

/-- A missing or non-`Float` bar-beat leaves the beat position alone. -/
theorem update_beat_none (self : Metro) (o : Option LV2_Atom)
    (h : ∀ a, o = some a → a.type ≠ self.uris.atom_Float) :
    update_beat self o = self := by
  unfold update_beat
  cases o with
  | none => rfl
  | some a => simp [h a rfl]

/-- The fields `update_position` writes, and those it leaves alone. -/
theorem update_position_fields (self : Metro) (obj : LV2_Atom_Object) :
    (update_position self obj).uris = self.uris ∧
    (update_position self obj).rate = self.rate ∧
    (update_position self obj).bpm = tempo_after self obj ∧
    (update_position self obj).speed = speed_after self obj ∧
    (update_position self obj).wave = self.wave ∧
    (update_position self obj).wave_len = self.wave_len ∧
    (update_position self obj).attack_len = self.attack_len ∧
    (update_position self obj).decay_len = self.decay_len ∧
    (update_position self obj).wave_offset = self.wave_offset := by
  simp only [update_position, update_beat_uris, update_speed_uris, update_bpm_uris,
    update_beat_rate, update_speed_rate, update_bpm_rate, update_beat_bpm, update_speed_bpm,
    update_bpm_bpm, update_beat_speed, update_beat_wave, update_speed_wave, update_bpm_wave,
    update_beat_wave_len, update_speed_wave_len, update_bpm_wave_len, update_beat_attack_len,
    update_speed_attack_len, update_bpm_attack_len, update_beat_decay_len,
    update_speed_decay_len, update_bpm_decay_len, update_beat_wave_offset,
    update_speed_wave_offset, update_bpm_wave_offset, true_and, and_true]
  exact update_speed_speed self _ obj (update_bpm_uris _ _) (update_bpm_speed _ _)

/-- An object without a `Float` bar-beat leaves the beat position alone. -/
theorem update_position_no_beat (self : Metro) (obj : LV2_Atom_Object)
    (h : ∀ a, lv2_atom_object_get obj self.uris.time_barBeat = some a →
      a.type ≠ self.uris.atom_Float) :
    (update_position self obj).elapsed_len = self.elapsed_len ∧
    (update_position self obj).state = self.state := by
  simp only [update_position]
  rw [update_beat_none _ _ (by simpa using h)]
  simp

/-- An object with a `Float` bar-beat resynchronises the beat position with the
tempo the same object sets. -/
theorem update_position_beat (self : Metro) (obj : LV2_Atom_Object) (a : LV2_Atom)
    (hb : lv2_atom_object_get obj self.uris.time_barBeat = some a)
    (ht : a.type = self.uris.atom_Float) :
    (update_position self obj).elapsed_len =
      f2u32 (f32 (f32 (a.body - floorf a.body) *
        f32 (f64 (f32 (60 / tempo_after self obj) * self.rate)))) ∧
    (update_position self obj).state =
      segment_of self (update_position self obj).elapsed_len := by
  obtain ⟨e1, e2⟩ := update_beat_some
    (update_speed (update_bpm self (lv2_atom_object_get obj self.uris.time_beatsPerMinute))
      (lv2_atom_object_get obj self.uris.time_speed)) a (by simpa using ht)
  have hseg : ∀ e, segment_of (update_speed (update_bpm self
      (lv2_atom_object_get obj self.uris.time_beatsPerMinute))
      (lv2_atom_object_get obj self.uris.time_speed)) e = segment_of self e := by
    intro e
    simp [segment_of]
  simp only [update_position, hb]
  rw [e1, e2, hseg]
  simp only [update_speed_bpm, update_speed_rate, update_bpm_rate, update_bpm_bpm, and_self]

/-! ### Where `play` is defined -/

theorem play_frame_wave_offset (fpb : ℕ) (self : Metro) :
    (play_frame fpb self).1.wave_offset = u32_add self.wave_offset 1 % self.wave_len := by
  by_cases h : u32_add self.elapsed_len 1 = fpb <;> simp [play_frame, h]

theorem play_loop_checked_eq (fpb n i : ℕ) (self : Metro) (output : List ℚ)
    (hw : 0 < self.wave_len) (hwf : self.wave.length = self.wave_len)
    (hwo : self.wave_offset < self.wave_len) (hlen : i + n ≤ output.length) :
    play_loop_checked fpb n i self output = some (play_loop fpb n i self output) := by
  induction n generalizing i self output with
  | zero => rfl
  | succ n ih =>
    have hne : self.wave_len ≠ 0 := by omega
    have hi : ¬ output.length ≤ i := by omega
    have hrd : ¬ (self.state ≠ STATE_OFF ∧ self.wave.length ≤ self.wave_offset) := by
      intro h
      omega
    simp only [play_loop_checked, play_frame_checked, hne, hi, hrd, if_false]
    rw [ih _ _ _ (by rw [play_frame_wave_len]; exact hw)
      (by rw [play_frame_wave_len, play_frame_wave]; exact hwf)
      (by rw [play_frame_wave_len, play_frame_wave_offset]; exact Nat.mod_lt _ hw)
      (by rw [List.length_set]; omega), play_loop_succ]

/-- On an instance whose wave table has `wave_len > 0` entries, with
`wave_offset < wave_len`, a call of `play` over a span within the buffer is
defined, and its result is that of the total function `play`. -/
theorem play_checked_eq (self : Metro) (output : List ℚ) (begin end_ : ℕ)
    (hw : 0 < self.wave_len) (hwf : self.wave.length = self.wave_len)
    (hwo : self.wave_offset < self.wave_len) (hb : begin ≤ end_)
    (hlen : end_ ≤ output.length) :
    play_checked self output begin end_ = some (play self output begin end_) := by
  by_cases hsp : self.speed = 0
  · have hsub : ¬ output.length < u32_sub end_ begin := by
      have h1 : u32_sub end_ begin ≤ end_ - begin := by
        unfold u32_sub
        have e : end_ + UINT32_MOD - begin = (end_ - begin) + UINT32_MOD := by omega
        rw [e, Nat.add_mod_right]
        exact Nat.mod_le _ _
      omega
    simp [play_checked, play, hsp, hsub]
  · simp only [play_checked, play, hsp, if_false]
    exact play_loop_checked_eq _ _ _ _ _ hw hwf hwo (by omega)

/-- Under the same conditions the call is defined and leaves the instance that
`play` returns. -/
theorem play_checked_fst (self : Metro) (output : List ℚ) (begin end_ : ℕ)
    (hw : 0 < self.wave_len) (hwf : self.wave.length = self.wave_len)
    (hwo : self.wave_offset < self.wave_len) (hb : begin ≤ end_)
    (hlen : end_ ≤ output.length) :
    (play_checked self output begin end_).map (fun r => r.1) =
      some (play self output begin end_).1 := by
  rw [play_checked_eq self output begin end_ hw hwf hwo hb hlen]
  rfl

/-- With `wave_len = 0` a rolling call of `play` over a non-empty span has no
defined result. -/
theorem play_checked_wave_len_zero (self : Metro) (output : List ℚ) (begin end_ : ℕ)
    (hw : self.wave_len = 0) (hsp : self.speed ≠ 0) (h : begin < end_) :
    play_checked self output begin end_ = none := by
  obtain ⟨n, hn⟩ : ∃ n, end_ - begin = n + 1 := ⟨end_ - begin - 1, by omega⟩
  have hf : play_frame_checked (frames_per_beat self) self = none := by
    unfold play_frame_checked
    rw [if_pos hw]
    split <;> rfl
  simp only [play_checked, hsp, if_false, hn, play_loop_checked, hf]
  split <;> rfl

/-! ### A beat rendered from `Off` -/

theorem play_frame_snd (fpb : ℕ) (self : Metro) :
    (play_frame fpb self).2 = play_sample self := by
  by_cases h : u32_add self.elapsed_len 1 = fpb <;> simp [play_frame, h]

theorem play_frame_off_sample (fpb : ℕ) (self : Metro) (hoff : self.state = STATE_OFF) :
    (play_frame fpb self).2 = 0 := by
  rw [play_frame_snd]
  simp [play_sample, hoff]

theorem getD_set_zero (l : List ℚ) (i : ℕ) : (l.set i 0).getD i 0 = 0 := by
  simp [List.getD_eq_getElem?_getD, List.getElem?_set]
  split <;> simp

/-- Rolling from `Off` at the start of a beat: every frame of the beat is
rendered in `Off` and is silent, and the frame that completes the beat leaves
`Attack` with `elapsed_len = 0`. -/
theorem play_from_off (self : Metro) (output : List ℚ)
    (hoff : self.state = STATE_OFF) (he : self.elapsed_len = 0) (hsp : self.speed ≠ 0)
    (hfpb : 0 < frames_per_beat self) :
    (∀ k, k < frames_per_beat self →
      (play self output 0 k).1.state = STATE_OFF ∧
      (play self output 0 k).1.elapsed_len = k) ∧
    (∀ j, j < frames_per_beat self →
      (play self output 0 (frames_per_beat self)).2.getD j 0 = 0) ∧
    (play self output 0 (frames_per_beat self)).1.state = STATE_ATTACK ∧
    (play self output 0 (frames_per_beat self)).1.elapsed_len = 0 := by
  have hM := frames_per_beat_lt self
  have hrun : ∀ k, k < frames_per_beat self →
      (play_loop (frames_per_beat self) k 0 self output).1.state = STATE_OFF ∧
      (play_loop (frames_per_beat self) k 0 self output).1.elapsed_len = k ∧
      ∀ j, j < k → (play_loop (frames_per_beat self) k 0 self output).2.getD j 0 = 0 := by
    intro k hk
    obtain ⟨a1, a2, a3⟩ := play_loop_off (frames_per_beat self) k 0 self output hoff
      (by omega) (le_of_lt hM)
    exact ⟨a1, by omega, fun j hj => a3 j (Nat.zero_le j) (by omega)⟩
  have hsplit : play self output 0 (frames_per_beat self) =
      play_loop (frames_per_beat self) 1 (frames_per_beat self - 1)
        (play_loop (frames_per_beat self) (frames_per_beat self - 1) 0 self output).1
        (play_loop (frames_per_beat self) (frames_per_beat self - 1) 0 self output).2 := by
    rw [play_playing self output 0 _ hsp]
    have h1 : frames_per_beat self - 0 = (frames_per_beat self - 1) + 1 := by omega
    rw [h1, play_loop_add, Nat.zero_add]
  obtain ⟨b1, b2, b3⟩ := hrun (frames_per_beat self - 1) (by omega)
  obtain ⟨c1, c2⟩ := play_frame_wrap (frames_per_beat self)
    (play_loop (frames_per_beat self) (frames_per_beat self - 1) 0 self output).1
    (by omega) hM
  refine ⟨?_, ?_, ?_, ?_⟩
  · intro k hk
    rw [play_playing self output 0 k hsp, Nat.sub_zero]
    exact ⟨(hrun k hk).1, (hrun k hk).2.1⟩
  · intro j hj
    rw [hsplit, play_loop_succ, play_loop_zero, play_frame_off_sample _ _ b1]
    by_cases hlast : j = frames_per_beat self - 1
    · rw [hlast]
      exact getD_set_zero _ _
    · have hne : frames_per_beat self - 1 ≠ j := fun h => hlast h.symm
      have := b3 j (by omega)
      simpa [List.getD_eq_getElem?_getD, List.getElem?_set, hne] using this
  · rw [hsplit, play_loop_succ, play_loop_zero]
    exact c1
  · rw [hsplit, play_loop_succ, play_loop_zero]
    exact c2

theorem frames_per_beat_metro48k : frames_per_beat metro48k = 24000 := by decide!

/-- C5 (amended): on an instance whose wave table has `wave_len > 0` entries,
with `wave_offset < wave_len`, rolling (`speed ≠ 0`) from `Off` with
`elapsed_len = 0` and `frames_per_beat > 0`: the calls of `play` within the
buffer are defined (with the instance stated here as their result) and every one
of the `frames_per_beat` frames of the beat is rendered in state `Off` (after `k`
frames the state is `Off` with
`elapsed_len = k`, and the samples are zero); the frame that completes the beat
leaves state `Attack` with `elapsed_len = 0`.  At 48 kHz and 120 BPM,
`frames_per_beat = 24000`, `attack_len = 240` and `decay_len = 3600`. -/
theorem beat_cycle_from_off (self : Metro) (output : List ℚ)
    (hoff : self.state = STATE_OFF) (he : self.elapsed_len = 0) (hsp : self.speed ≠ 0)
    (hfpb : 0 < frames_per_beat self) (hw : 0 < self.wave_len)
    (hwf : self.wave.length = self.wave_len) (hwo : self.wave_offset < self.wave_len) :
    ((∀ k, k ≤ output.length →
        (play_checked self output 0 k).map (fun r => r.1) = some (play self output 0 k).1) ∧
      (∀ k, k < frames_per_beat self →
        (play self output 0 k).1.state = STATE_OFF ∧
        (play self output 0 k).1.elapsed_len = k) ∧
      (∀ j, j < frames_per_beat self →
        (play self output 0 (frames_per_beat self)).2.getD j 0 = 0) ∧
      (play self output 0 (frames_per_beat self)).1.state = STATE_ATTACK ∧
      (play self output 0 (frames_per_beat self)).1.elapsed_len = 0) ∧
    ∀ (uris : MetroURIs) (tbl : ℕ → ℚ),
      (instantiate 48000 (some uris) tbl).map
          (fun s => (frames_per_beat s, s.attack_len, s.decay_len)) =
        some (24000, 240, 3600) := by
  refine ⟨⟨fun k hk => play_checked_fst self output 0 k hw hwf hwo (Nat.zero_le _) hk,
    play_from_off self output hoff he hsp hfpb⟩, ?_⟩
  intro uris tbl
  have h1 : f2u32 (f64 (f32 (60 / 120) * 48000)) = 24000 := by decide!
  have h2 : f2u32 (f64 (attack_s * 48000)) = 240 := by decide!
  have h3 : f2u32 (f64 (decay_s * 48000)) = 3600 := by decide!
  simp only [instantiate, frames_per_beat, Option.map_some', h1, h2, h3]

/-- Witness of C5: the 48 kHz instance at 120 BPM, over a buffer of 24000
frames. -/
theorem beat_cycle_from_off_witness :
    metro48k.state = STATE_OFF ∧ metro48k.elapsed_len = 0 ∧ metro48k.speed ≠ 0 ∧
    0 < frames_per_beat metro48k ∧ 0 < metro48k.wave_len ∧
    metro48k.wave.length = metro48k.wave_len ∧ metro48k.wave_offset < metro48k.wave_len ∧
    (play metro48k (List.replicate 24000 1) 0 (frames_per_beat metro48k)).1.state =
      STATE_ATTACK ∧
    (play metro48k (List.replicate 24000 1) 0 (frames_per_beat metro48k)).1.elapsed_len = 0 :=
  ⟨rfl, rfl, by decide!, by decide!, by decide!, by decide!, by decide!,
    (beat_cycle_from_off metro48k (List.replicate 24000 1) rfl rfl (by decide!)
      (by decide!) (by decide!) (by decide!) (by decide!)).1.2.2.2⟩

/-- Counterexample to C5 as stated: at 48 kHz and 120 BPM (`frames_per_beat =
24000`), rolling from `Off` with `elapsed_len = 0`, the envelope is in `Decay`
after none of the first 24000 frames: it does not pass through `Attack`, `Decay`
and `Off` during the beat. -/
theorem beat_cycle_from_off_never_decays :
    frames_per_beat metro48k = 24000 ∧
    metro48k.state = STATE_OFF ∧ metro48k.elapsed_len = 0 ∧ metro48k.speed = 1 ∧
    ∀ (output : List ℚ) (k : ℕ), k ≤ 24000 →
      (play metro48k output 0 k).1.state ≠ STATE_DECAY := by
  refine ⟨frames_per_beat_metro48k, rfl, rfl, rfl, ?_⟩
  intro output k hk
  have hsp : metro48k.speed ≠ 0 := by decide!
  have hpos : 0 < frames_per_beat metro48k := by rw [frames_per_beat_metro48k]; omega
  obtain ⟨h1, _, h3, _⟩ := play_from_off metro48k output rfl rfl hsp hpos
  rw [frames_per_beat_metro48k] at h1 h3
  rcases Nat.lt_or_ge k 24000 with hlt | hge
  · rw [(h1 k hlt).1]
    decide
  · have hk2 : k = 24000 := by omega
    rw [hk2, h3]
    decide

/-! ### The bound on `elapsed_len` -/

/-- A tempo-only position object overwrites `bpm` and nothing else. -/
theorem update_position_tempo_object (self : Metro) (uris : MetroURIs) (v : ℚ)
    (hu : self.uris = uris)
    (h1 : uris.time_beatsPerMinute ≠ uris.time_barBeat)
    (h2 : uris.time_beatsPerMinute ≠ uris.time_speed) :
    update_position self (tempo_object uris v) = { self with bpm := v } := by
  simp [update_position, tempo_object, position_object, float_prop, lv2_atom_object_get,
    update_bpm, update_speed, update_beat, hu, h1, h2]

theorem metro48k_started :
    update_position (activate { metro48k with speed := 0 }) (speed_event uris0 0 1).body =
      metro48k := by
  decide!

theorem update_position_tempo_object_fields (self : Metro) (uris : MetroURIs) (v : ℚ)
    (hu : self.uris = uris)
    (h1 : uris.time_beatsPerMinute ≠ uris.time_barBeat)
    (h2 : uris.time_beatsPerMinute ≠ uris.time_speed) :
    (update_position self (tempo_object uris v)).bpm = v ∧
    (update_position self (tempo_object uris v)).rate = self.rate ∧
    (update_position self (tempo_object uris v)).elapsed_len = self.elapsed_len ∧
    (update_position self (tempo_object uris v)).state = self.state := by
  rw [update_position_tempo_object self uris v hu h1 h2]
  exact ⟨rfl, rfl, rfl, rfl⟩

theorem metro48k_tempo_raised_eq :
    metro48k_tempo_raised =
      update_position (play metro48k (List.replicate 20000 0) 0 20000).1
        (tempo_object uris0 240) := by
  unfold metro48k_tempo_raised
  rw [metro48k_started]

/-- C6 (code evaluated at the failing input): the 48 kHz instance, activated,
started by a `speed = 1` event, rendered for 20000 frames at 120 BPM and then
given the tempo 240 BPM, is a reachable state with positive tempo in which
`elapsed_len = 20000` while `frames_per_beat = 12000`: the tempo update leaves
`elapsed_len` above the new beat length. -/
theorem tempo_raise_breaks_elapsed_bound :
    Reachable { metro48k with speed := 0 } metro48k_tempo_raised ∧
    0 < metro48k_tempo_raised.bpm ∧
    metro48k_tempo_raised.elapsed_len = 20000 ∧
    frames_per_beat metro48k_tempo_raised = 12000 ∧
    ¬ metro48k_tempo_raised.elapsed_len < frames_per_beat metro48k_tempo_raised := by
  have hpos : 0 < frames_per_beat metro48k := by rw [frames_per_beat_metro48k]; omega
  have hsp : metro48k.speed ≠ 0 := by decide!
  have h2 : (play metro48k (List.replicate 20000 0) 0 20000).1.elapsed_len = 20000 :=
    ((play_from_off metro48k (List.replicate 20000 0) rfl rfl hsp hpos).1 20000
      (by rw [frames_per_beat_metro48k]; omega)).2
  have hu : (play metro48k (List.replicate 20000 0) 0 20000).1.uris = uris0 :=
    (play_uris _ _ _ _).trans rfl
  have hr0 : (play metro48k (List.replicate 20000 0) 0 20000).1.rate = 48000 :=
    (play_rate _ _ _ _).trans rfl
  obtain ⟨f1, f2, f3, _⟩ := update_position_tempo_object_fields
    (play metro48k (List.replicate 20000 0) 0 20000).1 uris0 240 hu (by decide) (by decide)
  have hbpm : metro48k_tempo_raised.bpm = 240 := by rw [metro48k_tempo_raised_eq, f1]
  have hrate : metro48k_tempo_raised.rate = 48000 := by
    rw [metro48k_tempo_raised_eq, f2, hr0]
  have he : metro48k_tempo_raised.elapsed_len = 20000 := by
    rw [metro48k_tempo_raised_eq, f3, h2]
  have hf : frames_per_beat metro48k_tempo_raised = 12000 := by
    unfold frames_per_beat
    rw [hbpm, hrate]
    decide!
  refine ⟨?_, by rw [hbpm]; norm_num, he, hf, by rw [he, hf]; omega⟩
  have hr : Reachable { metro48k with speed := 0 }
      (play metro48k (List.replicate 20000 0) 0 20000).1 := by
    refine Reachable.step_play _ _ _ _ ?_
    rw [← metro48k_started]
    refine Reachable.step_update _ _ Reachable.init ?_
    rw [metro48k_started]
    decide!
  rw [metro48k_tempo_raised_eq]
  exact Reachable.step_update _ (tempo_object uris0 240) hr (by rw [f1]; norm_num)

/-! ### The amplitude of the output -/

/-- C7 (code evaluated at the failing input): the 3520 Hz instance (positive
tempo, `attack_len = 17`, `decay_len = 264`, `wave_len = 4`, wave table within
`[-1/2, 1/2]`), activated with the transport stopped, is reachable; a call of
`play` over the span `[2, 4)` of a buffer holding sevens, and a call of `run` over
that buffer with one event at frame 2, leave `[0, 0, 7, 7]`: the samples 2 and 3
of the rendered span are 7, outside `[-1/2, 1/2]`. -/
theorem stopped_span_keeps_stale_samples :
    envelope_setup { metro3520 with speed := 0 } ∧
    Reachable { metro3520 with speed := 0 } (activate { metro3520 with speed := 0 }) ∧
    0 < (activate { metro3520 with speed := 0 }).bpm ∧
    0 < (activate { metro3520 with speed := 0 }).wave_len ∧
    play_checked (activate { metro3520 with speed := 0 }) [7, 7, 7, 7] 2 4 =
      some (activate { metro3520 with speed := 0 }, [0, 0, 7, 7]) ∧
    (run (activate { metro3520 with speed := 0 }) [7, 7, 7, 7] [speed_event uris0 2 0] 4).2 =
      [0, 0, 7, 7] ∧
    ¬ in_amp ((play (activate { metro3520 with speed := 0 }) [7, 7, 7, 7] 2 4).2.getD 2 0) ∧
    ¬ in_amp ((play (activate { metro3520 with speed := 0 }) [7, 7, 7, 7] 2 4).2.getD 3 0) := by
  refine ⟨?_, Reachable.init, by decide!, by decide!, by decide!, by decide!, ?_, ?_⟩
  · unfold envelope_setup
    decide!
  · unfold in_amp
    decide!
  · unfold in_amp
    decide!

/-! ### Two events in one buffer -/

theorem run_event_snd (self : Metro) (output : List ℚ) (last_t : ℕ) (ev : LV2_Atom_Event) :
    (run_event self output last_t ev).2 = (play self output last_t ev.frames).2 := by
  unfold run_event
  simp only []
  split
  · split <;> rfl
  · rfl

theorem run_two_events (self : Metro) (output : List ℚ) (ev1 ev2 : LV2_Atom_Event)
    (sample_count : ℕ) :
    run self output [ev1, ev2] sample_count =
      play (run_event self output 0 ev1).1 (run_event self output 0 ev1).2 ev1.frames
        sample_count := rfl

/-- Two events with the transport rolling after the first: the samples before
the first event are those rendered from the initial instance, the samples
between the two events are those rendered from the instance the first event
leaves, and the second event is not applied. -/
theorem run_two_events_rolling (self : Metro) (output : List ℚ) (ev1 ev2 : LV2_Atom_Event)
    (sample_count : ℕ) (h2 : ev2.frames ≤ sample_count)
    (hlen : sample_count ≤ output.length)
    (hsp : (run_event self output 0 ev1).1.speed ≠ 0) :
    (∀ j, j < ev1.frames →
      (run self output [ev1, ev2] sample_count).2.getD j 0 =
        (play self output 0 ev1.frames).2.getD j 0) ∧
    (∀ j, ev1.frames ≤ j → j < ev2.frames →
      (run self output [ev1, ev2] sample_count).2.getD j 0 =
        (play (run_event self output 0 ev1).1 (run_event self output 0 ev1).2
          ev1.frames ev2.frames).2.getD j 0) ∧
    (run self output [ev1, ev2] sample_count).1 =
      (play (run_event self output 0 ev1).1 (run_event self output 0 ev1).2 ev1.frames
        sample_count).1 := by
  rw [run_two_events]
  refine ⟨?_, ?_, rfl⟩
  · intro j hj
    rw [play_playing _ _ _ _ hsp, play_loop_getD_outside _ _ _ _ _ _ (Or.inl hj),
      run_event_snd]
  · intro j hj1 hj2
    have hl : (run_event self output 0 ev1).2.length = output.length := by
      rw [run_event_snd]
      by_cases h0 : self.speed = 0
      · rw [play_stopped _ _ _ _ h0]
        simp [memset_zero]
        omega
      · rw [play_playing _ _ _ _ h0, play_loop_length]
    have hj : j = ev1.frames + (j - ev1.frames) := by omega
    rw [play_playing _ _ _ _ hsp, play_playing _ _ _ _ hsp, hj,
      play_loop_getD_inside _ _ _ _ _ _ (by omega) (by omega),
      play_loop_getD_inside _ _ _ _ _ _ (by omega) (by omega)]

/-- C8 (code evaluated at the failing input): the 3520 Hz instance in mid-attack
(`elapsed_len = 8`, `wave_offset = 1`), a four-frame buffer holding sevens, and
the events `speed = 0` at frame 2 and `speed = 1` at frame 3.  Rendering `[0, 2)`
with the state before the events gives the samples `4/17` (rounded to `float`)
and `0`; after `run` the buffer is `[0, 0, 7, 7]`: sample 0 has been overwritten after the event at
frame 2 was applied, and sample 2 has not been rendered. -/
theorem run_stop_event_overwrites_head :
    (play metro3520 [7, 7, 7, 7] 0 2).2 = [f32 (4 / 17), 0, 7, 7] ∧
    (run metro3520 [7, 7, 7, 7] [speed_event uris0 2 0, speed_event uris0 3 1] 4).2 =
      [0, 0, 7, 7] := by
  decide!

/-! ### Resynchronisation -/

/-- On its defined range the conversion to `uint32_t` is the integer part. -/
theorem f2u32_floor (y : ℚ) (h0 : 0 ≤ y) (h1 : y < (UINT32_MOD : ℚ)) :
    (f2u32 y : ℚ) ≤ y ∧ y < (f2u32 y : ℚ) + 1 := by
  have hnum : 0 ≤ y.num := Rat.num_nonneg.mpr h0
  have hden : (0 : ℤ) ≤ (y.den : ℤ) := Int.natCast_nonneg _
  have hfl : y.num.tdiv (y.den : ℤ) = ⌊y⌋ := by
    rw [Int.tdiv_eq_ediv hnum hden, Rat.floor_def]
  have hf0 : 0 ≤ ⌊y⌋ := Int.floor_nonneg.mpr h0
  have hfM : ⌊y⌋ < (UINT32_MOD : ℤ) := by
    rw [Int.floor_lt]
    exact_mod_cast h1
  have hval : ((f2u32 y : ℕ) : ℤ) = ⌊y⌋ := by
    unfold f2u32
    rw [hfl, Int.emod_eq_of_lt hf0 hfM, Int.toNat_of_nonneg hf0]
  have hq : (f2u32 y : ℚ) = ((⌊y⌋ : ℤ) : ℚ) := by
    rw [← hval]
    simp
  rw [hq]
  exact ⟨Int.floor_le y, Int.lt_floor_add_one y⟩

theorem f2u32_zero : f2u32 0 = 0 := by decide!

/-- Counterexample to C9 as stated: on the instance `instantiate` builds at a
sample rate of 100 Hz, `attack_len` is 0 and a position update with bar-beat 0.0
yields `elapsed_len = 0` in state `Decay`, not `Attack`. -/
theorem resync_zero_without_attack :
    (instantiate 100 (some uris0) (sine_tbl 100)).map
        (fun s =>
          (s.attack_len, (update_position (activate s) (beat_object uris0 0)).elapsed_len,
            (update_position (activate s) (beat_object uris0 0)).state)) =
      some (0, 0, STATE_DECAY) := by
  decide!

/-- C9 (amended): for every instance with `attack_len > 0`, a position update
whose bar-beat is a `Float` with fractional part 0 yields state `Attack` and
`elapsed_len = 0`. -/
theorem resync_zero (self : Metro) (obj : LV2_Atom_Object) (a : LV2_Atom)
    (hb : lv2_atom_object_get obj self.uris.time_barBeat = some a)
    (ht : a.type = self.uris.atom_Float)
    (hx : a.body - floorf a.body = 0)
    (ha : 0 < self.attack_len) :
    (update_position self obj).state = STATE_ATTACK ∧
    (update_position self obj).elapsed_len = 0 := by
  obtain ⟨e1, e2⟩ := update_position_beat self obj a hb ht
  rw [hx, f32_zero, zero_mul, f32_zero, f2u32_zero] at e1
  rw [e1] at e2
  refine ⟨?_, e1⟩
  rw [e2]
  unfold segment_of
  simp [ha]

/-- Witness of C9: bar-beat 4.0 on the 48 kHz instance in mid-beat. -/
theorem resync_zero_witness :
    lv2_atom_object_get (beat_object uris0 4)
        ({ metro48k with elapsed_len := 5000 } : Metro).uris.time_barBeat =
      some { type := uris0.atom_Float, body := 4 } ∧
    (4 : ℚ) - floorf 4 = 0 ∧
    0 < ({ metro48k with elapsed_len := 5000 } : Metro).attack_len ∧
    (update_position { metro48k with elapsed_len := 5000 } (beat_object uris0 4)).state =
      STATE_ATTACK ∧
    (update_position { metro48k with elapsed_len := 5000 } (beat_object uris0 4)).elapsed_len =
      0 :=
  ⟨by decide!, by decide!, by decide!,
    resync_zero { metro48k with elapsed_len := 5000 } (beat_object uris0 4)
      { type := uris0.atom_Float, body := 4 } (by decide!) (by decide!) (by decide!)
      (by decide!)⟩

/-- C11 (code evaluated at the failing input): on the rolling 48 kHz instance
with a buffer of 100 frames, the sequence holding the stop event at frame 50
alone ends with `speed = 0` and `elapsed_len = 50`; with a `Path` event (or an
object of another type) inserted at frame 0 before it, `run` ends with
`speed = 1` and `elapsed_len = 100`: the stop event that follows the inserted
event is stepped over. -/
theorem run_irrelevant_event_hides_next :
    ((run metro48k (List.replicate 100 0) [speed_event uris0 50 0] 100).1.speed = 0 ∧
      (run metro48k (List.replicate 100 0) [speed_event uris0 50 0] 100).1.elapsed_len = 50) ∧
    ((run metro48k (List.replicate 100 0)
        [path_event uris0 0, speed_event uris0 50 0] 100).1.speed = 1 ∧
      (run metro48k (List.replicate 100 0)
        [path_event uris0 0, speed_event uris0 50 0] 100).1.elapsed_len = 100) ∧
    ((run metro48k (List.replicate 100 0)
        [foreign_object_event uris0 0 0, speed_event uris0 50 0] 100).1.speed = 1 ∧
      (run metro48k (List.replicate 100 0)
        [foreign_object_event uris0 0 0, speed_event uris0 50 0] 100).1.elapsed_len = 100) := by
  decide!

/-! ### The fields of a position object -/

theorem tempo_after_congr (s t : Metro) (obj : LV2_Atom_Object) (hu : t.uris = s.uris)
    (hb : t.bpm = s.bpm) : tempo_after t obj = tempo_after s obj := by
  unfold tempo_after
  rw [hu, hb]

theorem tempo_after_float (self : Metro) (obj : LV2_Atom_Object) (a : LV2_Atom)
    (h : lv2_atom_object_get obj self.uris.time_beatsPerMinute = some a)
    (ht : a.type = self.uris.atom_Float) : tempo_after self obj = a.body := by
  unfold tempo_after
  rw [h]
  simp [ht]

theorem tempo_after_other (self : Metro) (obj : LV2_Atom_Object)
    (h : ∀ a, lv2_atom_object_get obj self.uris.time_beatsPerMinute = some a →
      a.type ≠ self.uris.atom_Float) : tempo_after self obj = self.bpm := by
  unfold tempo_after
  cases hg : lv2_atom_object_get obj self.uris.time_beatsPerMinute with
  | none => rfl
  | some a => simp [h a hg]

theorem speed_after_float (self : Metro) (obj : LV2_Atom_Object) (a : LV2_Atom)
    (h : lv2_atom_object_get obj self.uris.time_speed = some a)
    (ht : a.type = self.uris.atom_Float) : speed_after self obj = a.body := by
  unfold speed_after
  rw [h]
  simp [ht]

theorem speed_after_other (self : Metro) (obj : LV2_Atom_Object)
    (h : ∀ a, lv2_atom_object_get obj self.uris.time_speed = some a →
      a.type ≠ self.uris.atom_Float) : speed_after self obj = self.speed := by
  unfold speed_after
  cases hg : lv2_atom_object_get obj self.uris.time_speed with
  | none => rfl
  | some a => simp [h a hg]

/-- C12: in `update_position`, for each of the tempo, the speed and the
bar-beat: when the property is absent or its value is not a `Float` atom, the
corresponding state (`bpm`; `speed`; `elapsed_len` and the envelope state) is
left unchanged, and when it is a `Float` it is applied (`bpm` and `speed` are
overwritten with the value, the beat position is resynchronised: `elapsed_len`
is the `float` product of `b - floorf b` and `60 / bpm * rate` converted to
`uint32_t`), whatever the other two properties are.  The update is a total function and leaves every
other field alone. -/
theorem update_position_per_field (self : Metro) (obj : LV2_Atom_Object) :
    ((∀ a, lv2_atom_object_get obj self.uris.time_beatsPerMinute = some a →
        a.type ≠ self.uris.atom_Float) → (update_position self obj).bpm = self.bpm) ∧
    (∀ a, lv2_atom_object_get obj self.uris.time_beatsPerMinute = some a →
        a.type = self.uris.atom_Float → (update_position self obj).bpm = a.body) ∧
    ((∀ a, lv2_atom_object_get obj self.uris.time_speed = some a →
        a.type ≠ self.uris.atom_Float) → (update_position self obj).speed = self.speed) ∧
    (∀ a, lv2_atom_object_get obj self.uris.time_speed = some a →
        a.type = self.uris.atom_Float → (update_position self obj).speed = a.body) ∧
    ((∀ a, lv2_atom_object_get obj self.uris.time_barBeat = some a →
        a.type ≠ self.uris.atom_Float) →
      (update_position self obj).elapsed_len = self.elapsed_len ∧
      (update_position self obj).state = self.state) ∧
    (∀ a, lv2_atom_object_get obj self.uris.time_barBeat = some a →
        a.type = self.uris.atom_Float →
      (update_position self obj).elapsed_len =
        f2u32 (f32 (f32 (a.body - floorf a.body) *
          f32 (f64 (f32 (60 / (update_position self obj).bpm) * self.rate)))) ∧
      (update_position self obj).state =
        segment_of self (update_position self obj).elapsed_len) ∧
    ((update_position self obj).uris = self.uris ∧
      (update_position self obj).rate = self.rate ∧
      (update_position self obj).wave = self.wave ∧
      (update_position self obj).wave_len = self.wave_len ∧
      (update_position self obj).attack_len = self.attack_len ∧
      (update_position self obj).decay_len = self.decay_len ∧
      (update_position self obj).wave_offset = self.wave_offset) := by
  obtain ⟨f1, f2, f3, f4, f5, f6, f7, f8, f9⟩ := update_position_fields self obj
  refine ⟨?_, ?_, ?_, ?_, ?_, ?_, ⟨f1, f2, f5, f6, f7, f8, f9⟩⟩
  · intro h
    rw [f3, tempo_after_other self obj h]
  · intro a h ht
    rw [f3, tempo_after_float self obj a h ht]
  · intro h
    rw [f4, speed_after_other self obj h]
  · intro a h ht
    rw [f4, speed_after_float self obj a h ht]
  · intro h
    exact update_position_no_beat self obj h
  · intro a h ht
    rw [f3]
    exact update_position_beat self obj a h ht

/-- Witness of C12: an object with a `Float` tempo of 90, a speed that is a
`Path` atom, and no bar-beat, on the 48 kHz instance: the tempo is applied, the
speed is left alone. -/
theorem update_position_per_field_witness :
    (update_position metro48k
        (position_object uris0
          [float_prop uris0 uris0.time_beatsPerMinute 90,
            { key := uris0.time_speed, value := { type := uris0.atom_Path, body := 0 } }])).bpm =
      90 ∧
    (update_position metro48k
        (position_object uris0
          [float_prop uris0 uris0.time_beatsPerMinute 90,
            { key := uris0.time_speed, value := { type := uris0.atom_Path, body := 0 } }])).speed =
      metro48k.speed :=
  ⟨(update_position_per_field metro48k
      (position_object uris0
        [float_prop uris0 uris0.time_beatsPerMinute 90,
          { key := uris0.time_speed, value := { type := uris0.atom_Path, body := 0 } }])).2.1
      { type := uris0.atom_Float, body := 90 } (by decide!) (by decide!),
    (update_position_per_field metro48k
      (position_object uris0
        [float_prop uris0 uris0.time_beatsPerMinute 90,
          { key := uris0.time_speed, value := { type := uris0.atom_Path, body := 0 } }])).2.2.1
      (by decide!)⟩

theorem segment_of_congr (s t : Metro) (ha : t.attack_len = s.attack_len)
    (hd : t.decay_len = s.decay_len) (e : ℕ) : segment_of t e = segment_of s e := by
  unfold segment_of
  rw [ha, hd]

/-- Counterexample to C18 as stated: on the 48 kHz instance, an object with the
tempo 240 and the bar-beat `0.32f` sets `elapsed_len = 3840` and the state `Off`,
whereas `(b - floor b) * (60 / new_bpm * rate)` converted to whole frames is
3839, in `Decay`: the product is rounded to `float` before the conversion. -/
theorem resync_product_rounds_up :
    (update_position metro48k
        (position_object uris0
          [float_prop uris0 uris0.time_barBeat (f32 (32 / 100)),
            float_prop uris0 uris0.time_beatsPerMinute 240])).bpm = 240 ∧
    (update_position metro48k
        (position_object uris0
          [float_prop uris0 uris0.time_barBeat (f32 (32 / 100)),
            float_prop uris0 uris0.time_beatsPerMinute 240])).elapsed_len = 3840 ∧
    (update_position metro48k
        (position_object uris0
          [float_prop uris0 uris0.time_barBeat (f32 (32 / 100)),
            float_prop uris0 uris0.time_beatsPerMinute 240])).state = STATE_OFF ∧
    f2u32 ((f32 (32 / 100) - floorf (f32 (32 / 100))) * (60 / 240 * metro48k.rate)) = 3839 ∧
    segment_of metro48k 3839 = STATE_DECAY := by
  decide!

/-- C18 (amended): when a position object carries a `Float` tempo and a `Float`
bar-beat, the tempo is applied first and the resynchronisation uses it:
`bpm` becomes the new tempo and `elapsed_len` becomes the `float` product of the
`float`s `b - floorf b` and `60 / new_bpm * rate`, converted to `uint32_t`, with
the state of the segment it falls into; the result is the same whatever `bpm`
and `speed` were before the event, and a `Float` speed in the same object is
stored as it is. -/
theorem update_position_tempo_then_beat (self : Metro) (obj : LV2_Atom_Object)
    (t b : LV2_Atom)
    (hbpm : lv2_atom_object_get obj self.uris.time_beatsPerMinute = some t)
    (htt : t.type = self.uris.atom_Float)
    (hbeat : lv2_atom_object_get obj self.uris.time_barBeat = some b)
    (hbt : b.type = self.uris.atom_Float) :
    (update_position self obj).bpm = t.body ∧
    (update_position self obj).elapsed_len =
      f2u32 (f32 (f32 (b.body - floorf b.body) *
        f32 (f64 (f32 (60 / t.body) * self.rate)))) ∧
    (update_position self obj).state =
      segment_of self (f2u32 (f32 (f32 (b.body - floorf b.body) *
        f32 (f64 (f32 (60 / t.body) * self.rate))))) ∧
    (∀ v w : ℚ,
      (update_position { self with bpm := v, speed := w } obj).elapsed_len =
        (update_position self obj).elapsed_len ∧
      (update_position { self with bpm := v, speed := w } obj).state =
        (update_position self obj).state) ∧
    (∀ sp, lv2_atom_object_get obj self.uris.time_speed = some sp →
      sp.type = self.uris.atom_Float → (update_position self obj).speed = sp.body) := by
  have key : ∀ s : Metro, s.uris = self.uris → s.rate = self.rate →
      s.attack_len = self.attack_len → s.decay_len = self.decay_len →
      (update_position s obj).elapsed_len =
        f2u32 (f32 (f32 (b.body - floorf b.body) *
          f32 (f64 (f32 (60 / t.body) * self.rate)))) ∧
      (update_position s obj).state =
        segment_of self (f2u32 (f32 (f32 (b.body - floorf b.body) *
          f32 (f64 (f32 (60 / t.body) * self.rate))))) := by
    intro s hu hr ha hd
    obtain ⟨e1, e2⟩ := update_position_beat s obj b (by rw [hu]; exact hbeat)
      (by rw [hu]; exact hbt)
    rw [tempo_after_float s obj t (by rw [hu]; exact hbpm) (by rw [hu]; exact htt), hr] at e1
    rw [e1, segment_of_congr self s ha hd] at e2
    exact ⟨e1, e2⟩
  obtain ⟨k1, k2⟩ := key self rfl rfl rfl rfl
  refine ⟨?_, k1, k2, ?_, ?_⟩
  · rw [(update_position_fields self obj).2.2.1, tempo_after_float self obj t hbpm htt]
  · intro v w
    obtain ⟨j1, j2⟩ := key { self with bpm := v, speed := w } rfl rfl rfl rfl
    rw [j1, j2, k1, k2]
    exact ⟨rfl, rfl⟩
  · intro sp hs hst
    rw [(update_position_fields self obj).2.2.2.1, speed_after_float self obj sp hs hst]

/-- Witness of C18: tempo 240 and bar-beat 4.25 in one object, on the 48 kHz
instance at 120 BPM: `elapsed_len` is a quarter of the new beat of 12000
frames. -/
theorem update_position_tempo_then_beat_witness :
    (update_position metro48k
        (position_object uris0
          [float_prop uris0 uris0.time_barBeat (17 / 4),
            float_prop uris0 uris0.time_beatsPerMinute 240])).bpm = 240 ∧
    (update_position metro48k
        (position_object uris0
          [float_prop uris0 uris0.time_barBeat (17 / 4),
            float_prop uris0 uris0.time_beatsPerMinute 240])).elapsed_len =
      f2u32 (f32 (f32 ((17 / 4 : ℚ) - floorf (17 / 4)) *
        f32 (f64 (f32 (60 / 240) * metro48k.rate)))) ∧
    f2u32 (f32 (f32 ((17 / 4 : ℚ) - floorf (17 / 4)) *
      f32 (f64 (f32 (60 / 240) * metro48k.rate)))) = 3000 :=
  ⟨(update_position_tempo_then_beat metro48k
      (position_object uris0
        [float_prop uris0 uris0.time_barBeat (17 / 4),
          float_prop uris0 uris0.time_beatsPerMinute 240])
      { type := uris0.atom_Float, body := 240 } { type := uris0.atom_Float, body := 17 / 4 }
      (by decide!) (by decide!) (by decide!) (by decide!)).1,
    (update_position_tempo_then_beat metro48k
      (position_object uris0
        [float_prop uris0 uris0.time_barBeat (17 / 4),
          float_prop uris0 uris0.time_beatsPerMinute 240])
      { type := uris0.atom_Float, body := 240 } { type := uris0.atom_Float, body := 17 / 4 }
      (by decide!) (by decide!) (by decide!) (by decide!)).2.1,
    by decide!⟩

/-! ### Splitting a span -/

theorem frames_per_beat_congr (s t : Metro) (hb : t.bpm = s.bpm) (hr : t.rate = s.rate) :
    frames_per_beat t = frames_per_beat s := by
  unfold frames_per_beat
  rw [hb, hr]

/-- Two consecutive rolling spans render what the joint span renders. -/
theorem play_then_play (self : Metro) (output : List ℚ) (a b c : ℕ)
    (hsp : self.speed ≠ 0) (hab : a ≤ b) (hbc : b ≤ c) :
    play (play self output a b).1 (play self output a b).2 b c = play self output a c := by
  have hsp2 : (play self output a b).1.speed ≠ 0 := by
    rw [play_speed]; exact hsp
  have hf : frames_per_beat (play self output a b).1 = frames_per_beat self :=
    frames_per_beat_congr self _ (play_bpm _ _ _ _) (play_rate _ _ _ _)
  rw [play_playing _ _ b c hsp2, hf, play_playing self output a b hsp,
    play_playing self output a c hsp]
  have hn : c - a = (b - a) + (c - b) := by omega
  have hi : a + (b - a) = b := by omega
  rw [hn, play_loop_add, hi]

/-- C19: while the transport rolls (`speed ≠ 0`), for `a ≤ b ≤ c`, `play(a, b)`
followed by `play(b, c)` returns the same instance and the same output buffer
as the single call `play(a, c)`. -/
theorem play_split (self : Metro) (output : List ℚ) (a b c : ℕ)
    (hsp : self.speed ≠ 0) (hab : a ≤ b) (hbc : b ≤ c) :
    play (play self output a b).1 (play self output a b).2 b c = play self output a c :=
  play_then_play self output a b c hsp hab hbc

/-- Witness of C19: the 3520 Hz instance in mid-attack, an eight-frame buffer
cut at frame 3. -/
theorem play_split_witness :
    metro3520.speed ≠ 0 ∧
    play (play metro3520 (List.replicate 8 0) 0 3).1 (play metro3520 (List.replicate 8 0) 0 3).2
        3 8 =
      play metro3520 (List.replicate 8 0) 0 8 :=
  ⟨by decide!, play_split metro3520 (List.replicate 8 0) 0 3 8 (by decide!) (by decide)
    (by decide)⟩

/-! ### The oscillator phase -/

theorem play_loop_wave_offset (fpb n i : ℕ) (self : Metro) (output : List ℚ)
    (hw : 0 < self.wave_len) (hM : self.wave_len < UINT32_MOD)
    (hwo : self.wave_offset < self.wave_len) :
    (play_loop fpb n i self output).1.wave_offset =
      (self.wave_offset + n) % self.wave_len := by
  induction n generalizing i self output with
  | zero => rw [play_loop_zero, Nat.add_zero, Nat.mod_eq_of_lt hwo]
  | succ n ih =>
    have h1 : (play_frame fpb self).1.wave_offset = (self.wave_offset + 1) % self.wave_len := by
      rw [play_frame_wave_offset, u32_add_of_lt (by omega)]
    have h2 : (play_frame fpb self).1.wave_len = self.wave_len := play_frame_wave_len _ _
    rw [play_loop_succ, ih _ _ _ (by rw [h2]; exact hw) (by rw [h2]; exact hM)
      (by rw [h1, h2]; exact Nat.mod_lt _ hw), h1, h2, Nat.mod_add_mod]
    congr 1
    omega

theorem play_wave_offset (self : Metro) (output : List ℚ) (begin end_ : ℕ)
    (hw : 0 < self.wave_len) (hM : self.wave_len < UINT32_MOD)
    (hwo : self.wave_offset < self.wave_len) (hsp : self.speed ≠ 0) :
    (play self output begin end_).1.wave_offset =
      (self.wave_offset + (end_ - begin)) % self.wave_len := by
  rw [play_playing self output begin end_ hsp]
  exact play_loop_wave_offset _ _ _ _ _ hw hM hwo

theorem reachable_wave_offset (self0 self : Metro) (hr : Reachable self0 self)
    (hw : 0 < self0.wave_len) (hM : self0.wave_len < UINT32_MOD) :
    self.wave_len = self0.wave_len ∧ self.wave_offset < self.wave_len := by
  induction hr with
  | init => exact ⟨rfl, hw⟩
  | step_play s output begin end_ _ ih =>
    obtain ⟨h1, h2⟩ := ih
    refine ⟨(play_wave_len _ _ _ _).trans h1, ?_⟩
    rw [play_wave_len]
    by_cases hsp : s.speed = 0
    · rw [play_stopped s output begin end_ hsp]
      exact h2
    · rw [play_wave_offset s output begin end_ (by rw [h1]; exact hw) (by rw [h1]; exact hM)
        h2 hsp]
      exact Nat.mod_lt _ (by rw [h1]; exact hw)
  | step_update s obj _ _ ih =>
    obtain ⟨h1, h2⟩ := ih
    obtain ⟨_, _, _, _, _, f6, _, _, f9⟩ := update_position_fields s obj
    rw [f6, f9]
    exact ⟨h1, h2⟩

/-- C15: for an instance with `0 < wave_len` (a `uint32_t`) and
`wave_offset < wave_len` whose transport rolls, `play` over `n = end - begin`
frames leaves `wave_offset = (wave_offset + n) mod wave_len`, whatever the
envelope state, the tempo and the beat wraps.  The bound
`wave_offset < wave_len` holds after `activate`, is preserved by every call of
`play` and by every position update, and so holds in every instance reachable
from `activate`. -/
theorem wave_offset_advance :
    (∀ (self : Metro) (output : List ℚ) (begin end_ : ℕ),
      0 < self.wave_len → self.wave_len < UINT32_MOD →
      self.wave_offset < self.wave_len → self.speed ≠ 0 →
      (play self output begin end_).1.wave_offset =
        (self.wave_offset + (end_ - begin)) % self.wave_len) ∧
    (∀ self : Metro, 0 < self.wave_len →
      (activate self).wave_offset < (activate self).wave_len) ∧
    (∀ (self : Metro) (output : List ℚ) (begin end_ : ℕ),
      self.wave_len < UINT32_MOD → self.wave_offset < self.wave_len →
      (play self output begin end_).1.wave_offset <
        (play self output begin end_).1.wave_len) ∧
    (∀ (self : Metro) (obj : LV2_Atom_Object), self.wave_offset < self.wave_len →
      (update_position self obj).wave_offset < (update_position self obj).wave_len) ∧
    (∀ self0 self : Metro, Reachable self0 self →
      0 < self0.wave_len → self0.wave_len < UINT32_MOD →
      self.wave_offset < self.wave_len) := by
  refine ⟨fun self output begin end_ hw hM hwo hsp =>
      play_wave_offset self output begin end_ hw hM hwo hsp, fun self hw => hw, ?_, ?_,
    fun self0 self hr hw hM => (reachable_wave_offset self0 self hr hw hM).2⟩
  · intro self output begin end_ hM hwo
    have hw : 0 < self.wave_len := by omega
    rw [play_wave_len]
    by_cases hsp : self.speed = 0
    · rw [play_stopped self output begin end_ hsp]
      exact hwo
    · rw [play_wave_offset self output begin end_ hw hM hwo hsp]
      exact Nat.mod_lt _ hw
  · intro self obj hwo
    obtain ⟨_, _, _, _, _, f6, _, _, f9⟩ := update_position_fields self obj
    rw [f6, f9]
    exact hwo

/-- Witness of C15: 100 frames on the 48 kHz instance (`wave_len = 54`) from
`wave_offset = 0` leave `wave_offset = 100 mod 54 = 46`. -/
theorem wave_offset_advance_witness :
    (0 < metro48k.wave_len ∧ metro48k.wave_len < UINT32_MOD ∧
      metro48k.wave_offset < metro48k.wave_len ∧ metro48k.speed ≠ 0) ∧
    (play metro48k (List.replicate 100 0) 0 100).1.wave_offset =
      (metro48k.wave_offset + (100 - 0)) % metro48k.wave_len ∧
    (metro48k.wave_offset + (100 - 0)) % metro48k.wave_len = 46 :=
  ⟨by decide!,
    wave_offset_advance.1 metro48k (List.replicate 100 0) 0 100 (by decide!) (by decide!)
      (by decide!) (by decide!),
    by decide!⟩

/-! ### The beat counter -/

theorem play_loop_last (fpb k i : ℕ) (self : Metro) (output : List ℚ) :
    (play_loop fpb (k + 1) i self output).1 =
      (play_frame fpb (play_loop fpb k i self output).1).1 := by
  rw [play_loop_add, play_loop_succ, play_loop_zero]

theorem play_frame_elapsed (fpb : ℕ) (self : Metro) (hfpb : fpb < UINT32_MOD)
    (he : self.elapsed_len < fpb) :
    (play_frame fpb self).1.elapsed_len = (self.elapsed_len + 1) % fpb ∧
    (u32_add self.elapsed_len 1 = fpb ↔ (self.elapsed_len + 1) % fpb = 0) := by
  have hu : u32_add self.elapsed_len 1 = self.elapsed_len + 1 := u32_add_of_lt (by omega)
  by_cases h : self.elapsed_len + 1 = fpb
  · have hm : (self.elapsed_len + 1) % fpb = 0 := by rw [h, Nat.mod_self]
    simp [play_frame, hu, h, hm]
  · have hm : (self.elapsed_len + 1) % fpb = self.elapsed_len + 1 :=
      Nat.mod_eq_of_lt (by omega)
    simp [play_frame, hu, h, hm]

theorem play_loop_elapsed (fpb n i : ℕ) (self : Metro) (output : List ℚ)
    (hfpb : fpb < UINT32_MOD) (he : self.elapsed_len < fpb) :
    (play_loop fpb n i self output).1.elapsed_len = (self.elapsed_len + n) % fpb := by
  induction n generalizing i self output with
  | zero => rw [play_loop_zero, Nat.add_zero, Nat.mod_eq_of_lt he]
  | succ n ih =>
    have h1 := (play_frame_elapsed fpb self hfpb he).1
    rw [play_loop_succ, ih _ _ _ (by rw [h1]; exact Nat.mod_lt _ (by omega)), h1,
      Nat.mod_add_mod]
    congr 1
    omega

theorem play_beats_eq (fpb n : ℕ) (self : Metro) (hfpb : fpb < UINT32_MOD)
    (he : self.elapsed_len < fpb) :
    play_beats fpb n self = (self.elapsed_len + n) / fpb := by
  induction n generalizing self with
  | zero =>
    rw [Nat.add_zero, Nat.div_eq_of_lt he]
    rfl
  | succ n ih =>
    obtain ⟨h1, _⟩ := play_frame_elapsed fpb self hfpb he
    have hu : u32_add self.elapsed_len 1 = self.elapsed_len + 1 := u32_add_of_lt (by omega)
    have hnext : (play_frame fpb self).1.elapsed_len < fpb := by
      rw [h1]; exact Nat.mod_lt _ (by omega)
    simp only [play_beats]
    rw [ih _ hnext, h1, hu]
    by_cases h : self.elapsed_len + 1 = fpb
    · have e1 : self.elapsed_len + (n + 1) = fpb + n := by omega
      rw [h, Nat.mod_self, e1, Nat.add_div_left _ (by omega), Nat.zero_add, if_pos rfl]
      omega
    · rw [Nat.mod_eq_of_lt (by omega), if_neg h, Nat.zero_add]
      congr 1
      omega

/-- Counterexample to C16 as stated: the 800 Hz instance (`wave_len = 0`), in
`Off`, rolls with `frames_per_beat = 400 > 0` and `elapsed_len = 0 < 400`, and
`play` over one frame of a one-frame buffer divides by zero: no state results. -/
theorem elapsed_len_advance_undefined :
    ({ metro800 with state := STATE_OFF } : Metro).speed ≠ 0 ∧
    frames_per_beat { metro800 with state := STATE_OFF } = 400 ∧
    ({ metro800 with state := STATE_OFF } : Metro).elapsed_len <
      frames_per_beat { metro800 with state := STATE_OFF } ∧
    ({ metro800 with state := STATE_OFF } : Metro).wave_len = 0 ∧
    play_checked { metro800 with state := STATE_OFF } [0] 0 1 = none := by
  decide!

/-- C16 (amended): on an instance whose wave table has `wave_len > 0` entries,
with `wave_offset < wave_len`, for a rolling transport with `0 < frames_per_beat`
and `elapsed_len < frames_per_beat`, `play` within the buffer is defined (with
the instance stated here as its result) and over `n = end - begin` frames leaves
`elapsed_len = (elapsed_len + n) mod frames_per_beat`; the beat trigger fires
`(elapsed_len + n) / frames_per_beat` times, namely at the frames `k` with
`(elapsed_len + k + 1) mod frames_per_beat = 0`: such a frame leaves state
`Attack` with `elapsed_len = 0`, every other frame leaves the state chosen by the
envelope switch and a non-zero `elapsed_len`. -/
theorem elapsed_len_advance (self : Metro) (output : List ℚ) (begin end_ : ℕ)
    (hsp : self.speed ≠ 0) (hfpb : 0 < frames_per_beat self)
    (he : self.elapsed_len < frames_per_beat self) (hwl : 0 < self.wave_len)
    (hwf : self.wave.length = self.wave_len) (hwo : self.wave_offset < self.wave_len) :
    (∀ e, begin ≤ e → e ≤ output.length →
      (play_checked self output begin e).map (fun r => r.1) =
        some (play self output begin e).1) ∧
    (play self output begin end_).1.elapsed_len =
      (self.elapsed_len + (end_ - begin)) % frames_per_beat self ∧
    play_beats (frames_per_beat self) (end_ - begin) self =
      (self.elapsed_len + (end_ - begin)) / frames_per_beat self ∧
    ∀ k, k < end_ - begin →
      ((self.elapsed_len + k + 1) % frames_per_beat self = 0 →
        (play self output begin (begin + (k + 1))).1.state = STATE_ATTACK ∧
        (play self output begin (begin + (k + 1))).1.elapsed_len = 0) ∧
      ((self.elapsed_len + k + 1) % frames_per_beat self ≠ 0 →
        (play self output begin (begin + (k + 1))).1.state =
          play_switch (play self output begin (begin + k)).1 ∧
        (play self output begin (begin + (k + 1))).1.elapsed_len ≠ 0) := by
  have hM := frames_per_beat_lt self
  refine ⟨fun e h1 h2 => play_checked_fst self output begin e hwl hwf hwo h1 h2, ?_,
    play_beats_eq _ _ self hM he, ?_⟩
  · rw [play_playing self output begin end_ hsp]
    exact play_loop_elapsed _ _ _ _ _ hM he
  · intro k _
    have hk1 : begin + (k + 1) - begin = k + 1 := by omega
    have hk0 : begin + k - begin = k := by omega
    rw [play_playing self output begin _ hsp, play_playing self output begin _ hsp, hk1, hk0,
      play_loop_last]
    have hek := play_loop_elapsed (frames_per_beat self) k begin self output hM he
    have hlt : (play_loop (frames_per_beat self) k begin self output).1.elapsed_len <
        frames_per_beat self := by
      rw [hek]; exact Nat.mod_lt _ hfpb
    obtain ⟨g1, g2⟩ := play_frame_elapsed (frames_per_beat self) _ hM hlt
    have hmod : ((play_loop (frames_per_beat self) k begin self output).1.elapsed_len + 1) %
        frames_per_beat self = (self.elapsed_len + k + 1) % frames_per_beat self := by
      rw [hek, Nat.mod_add_mod]
    rw [hmod] at g1 g2
    constructor
    · intro h0
      have hw := g2.mpr h0
      refine ⟨?_, by rw [g1, h0]⟩
      simp [play_frame, hw]
    · intro h0
      have hw : ¬ u32_add (play_loop (frames_per_beat self) k begin self output).1.elapsed_len 1 =
          frames_per_beat self := fun h => h0 (g2.mp h)
      refine ⟨?_, by rw [g1]; exact h0⟩
      simp [play_frame, hw]

/-- Witness of C16: the 3520 Hz instance at 120 BPM (`frames_per_beat = 1760`)
from `elapsed_len = 8`, over 4000 frames: two beats start and `elapsed_len`
ends at `4008 mod 1760 = 488`.  And the 48 kHz instance at 125 BPM, where
`frames_per_beat` is 23039 (the `float` quotient `60 / 125` lies below `0.48`):
from `elapsed_len = 23038` one frame wraps to 0. -/
theorem elapsed_len_advance_witness :
    ((metro3520.speed ≠ 0 ∧ 0 < frames_per_beat metro3520 ∧
        metro3520.elapsed_len < frames_per_beat metro3520 ∧ 0 < metro3520.wave_len ∧
        metro3520.wave.length = metro3520.wave_len ∧
        metro3520.wave_offset < metro3520.wave_len) ∧
      (play metro3520 (List.replicate 4000 0) 0 4000).1.elapsed_len =
        (metro3520.elapsed_len + (4000 - 0)) % frames_per_beat metro3520 ∧
      play_beats (frames_per_beat metro3520) (4000 - 0) metro3520 =
        (metro3520.elapsed_len + (4000 - 0)) / frames_per_beat metro3520 ∧
      (metro3520.elapsed_len + (4000 - 0)) % frames_per_beat metro3520 = 488 ∧
      (metro3520.elapsed_len + (4000 - 0)) / frames_per_beat metro3520 = 2) ∧
    (frames_per_beat { metro48k with bpm := 125, elapsed_len := 23038 } = 23039 ∧
      (play { metro48k with bpm := 125, elapsed_len := 23038 } [0] 0 1).1.elapsed_len =
        (({ metro48k with bpm := 125, elapsed_len := 23038 } : Metro).elapsed_len + (1 - 0)) %
          frames_per_beat { metro48k with bpm := 125, elapsed_len := 23038 } ∧
      (({ metro48k with bpm := 125, elapsed_len := 23038 } : Metro).elapsed_len + (1 - 0)) %
          frames_per_beat { metro48k with bpm := 125, elapsed_len := 23038 } = 0) :=
  ⟨⟨by decide!,
      (elapsed_len_advance metro3520 (List.replicate 4000 0) 0 4000 (by decide!) (by decide!)
        (by decide!) (by decide!) (by decide!) (by decide!)).2.1,
      (elapsed_len_advance metro3520 (List.replicate 4000 0) 0 4000 (by decide!) (by decide!)
        (by decide!) (by decide!) (by decide!) (by decide!)).2.2.1,
      by decide!, by decide!⟩,
    by decide!,
    (elapsed_len_advance { metro48k with bpm := 125, elapsed_len := 23038 } [0] 0 1
      (by decide!) (by decide!) (by decide!) (by decide!) (by decide!) (by decide!)).2.1,
    by decide!⟩

/-! ### The envelope within one beat -/

/-- A frame on which the beat trigger does not fire leaves the state chosen by
the envelope switch and the incremented `elapsed_len`. -/
theorem play_frame_no_wrap (fpb : ℕ) (self : Metro) (h : u32_add self.elapsed_len 1 ≠ fpb) :
    (play_frame fpb self).1.state = play_switch self ∧
    (play_frame fpb self).1.elapsed_len = u32_add self.elapsed_len 1 := by
  simp [play_frame, h]

theorem schedule_state_succ (self : Metro) (s : Metro) (k : ℕ)
    (ha : s.attack_len = self.attack_len) (hdl : s.decay_len = self.decay_len)
    (he : s.elapsed_len = k) (hs : s.state = schedule_state self k)
    (hd : 0 < self.decay_len) (hlen : self.attack_len + self.decay_len < UINT32_MOD) :
    play_switch s = schedule_state self (k + 1) := by
  have hsum : u32_add self.attack_len self.decay_len = self.attack_len + self.decay_len :=
    u32_add_of_lt hlen
  unfold schedule_state at hs
  unfold play_switch schedule_state
  by_cases h1 : k ≤ self.attack_len
  · rw [if_pos h1] at hs
    rw [hs]
    simp only []
    rw [he, ha]
    by_cases h2 : k ≥ self.attack_len
    · have h3 : ¬ (k + 1 ≤ self.attack_len) := by omega
      have h4 : k + 1 ≤ self.attack_len + self.decay_len := by omega
      rw [if_pos h2, if_neg h3, if_pos h4]
    · have h3 : k + 1 ≤ self.attack_len := by omega
      rw [if_neg h2, if_pos h3]
  · rw [if_neg h1] at hs
    have h3 : ¬ (k + 1 ≤ self.attack_len) := by omega
    by_cases h2 : k ≤ self.attack_len + self.decay_len
    · rw [if_pos h2] at hs
      rw [hs]
      simp only []
      rw [he, ha, hdl, hsum]
      by_cases h5 : k ≥ self.attack_len + self.decay_len
      · have h4 : ¬ (k + 1 ≤ self.attack_len + self.decay_len) := by omega
        rw [if_pos h5, if_neg h3, if_neg h4]
      · have h4 : k + 1 ≤ self.attack_len + self.decay_len := by omega
        rw [if_neg h5, if_neg h3, if_pos h4]
    · rw [if_neg h2] at hs
      have h4 : ¬ (k + 1 ≤ self.attack_len + self.decay_len) := by omega
      rw [hs, if_neg h3, if_neg h4]

/-- Within a beat started in `Attack`, the instance after `k` frames is at
elapsed position `k` in the scheduled state. -/
theorem play_loop_schedule (fpb k i : ℕ) (self : Metro) (output : List ℚ)
    (hst : self.state = STATE_ATTACK) (he : self.elapsed_len = 0)
    (hd : 0 < self.decay_len) (hlen : self.attack_len + self.decay_len < fpb)
    (hfpb : fpb < UINT32_MOD) (hk : k < fpb) :
    (play_loop fpb k i self output).1.elapsed_len = k ∧
    (play_loop fpb k i self output).1.state = schedule_state self k := by
  induction k with
  | zero =>
    rw [play_loop_zero]
    refine ⟨he, ?_⟩
    simp [schedule_state, hst]
  | succ k ih =>
    obtain ⟨e1, e2⟩ := ih (by omega)
    have hu : u32_add (play_loop fpb k i self output).1.elapsed_len 1 = k + 1 := by
      rw [e1]; exact u32_add_of_lt (by omega)
    obtain ⟨n1, n2⟩ := play_frame_no_wrap fpb (play_loop fpb k i self output).1
      (by rw [hu]; omega)
    rw [play_loop_last, n1, n2, hu]
    exact ⟨rfl, schedule_state_succ self _ k (play_loop_attack_len _ _ _ _ _)
      (play_loop_decay_len _ _ _ _ _) e1 e2 hd (by omega)⟩

/-- The sample rendered at elapsed position `e` in the scheduled state is the
scheduled sample of the current wave table entry. -/
theorem play_sample_schedule (self s : Metro) (e : ℕ) (ha : s.attack_len = self.attack_len)
    (hd : s.decay_len = self.decay_len) (he : s.elapsed_len = e)
    (hs : s.state = schedule_state self e) (hM : e < UINT32_MOD) :
    play_sample s = schedule_sample self (wave_at s s.wave_offset) e := by
  unfold play_sample schedule_sample
  unfold schedule_state at hs
  by_cases h1 : e ≤ self.attack_len
  · rw [if_pos h1] at hs
    rw [hs, if_pos h1, he, ha]
  · rw [if_neg h1] at hs
    by_cases h2 : e ≤ self.attack_len + self.decay_len
    · rw [if_pos h2] at hs
      have h3 : self.attack_len ≤ e := by omega
      rw [hs, if_neg h1, if_pos h2, he, ha, hd]
      simp only []
      rw [u32_sub_of_le h3 hM]
    · rw [if_neg h2] at hs
      rw [hs, if_neg h1, if_neg h2]

/-- A positive length converts to a non-zero `float`. -/
theorem f32_natCast_ne_zero (n : ℕ) (hn : 0 < n) : f32 (n : ℚ) ≠ 0 := by
  have h1 : (1 : ℚ) ≤ (n : ℚ) := by exact_mod_cast hn
  have := le_f32_of_le (n : ℚ) 1 f32_one zero_le_one h1
  intro h0
  rw [h0] at this
  norm_num at this

/-- The scheduled sample is zero at the start of the beat and from the end of
the decay on. -/
theorem schedule_sample_zero (self : Metro) (w : ℚ) (hd : 0 < self.decay_len) :
    schedule_sample self w 0 = 0 ∧
    ∀ e, self.attack_len + self.decay_len ≤ e → schedule_sample self w e = 0 := by
  constructor
  · unfold schedule_sample
    rw [if_pos (Nat.zero_le _), Nat.cast_zero, f32_zero, mul_zero, f32_zero, zero_div, f32_zero]
  · intro e hge
    unfold schedule_sample
    have h1 : ¬ e ≤ self.attack_len := by omega
    rw [if_neg h1]
    by_cases h2 : e ≤ self.attack_len + self.decay_len
    · have h3 : e - self.attack_len = self.decay_len := by omega
      rw [if_pos h2, h3, div_self (f32_natCast_ne_zero _ hd), f32_one, sub_self, f32_zero,
        mul_zero, f32_zero]
    · rw [if_neg h2]

/-- Counterexample to C17 as stated: the 800 Hz instance (`wave_len = 0`) is in
`Attack` with `elapsed_len = 0`, rolls, has `attack_len = 4 > 0`,
`decay_len = 60 > 0` and `attack_len + decay_len = 64 < 400 = frames_per_beat`,
and rendering the beat over a buffer of 400 frames has no defined result: the
wave table is empty and the first frame divides by zero. -/
theorem envelope_schedule_undefined :
    metro800.state = STATE_ATTACK ∧ metro800.elapsed_len = 0 ∧ metro800.speed ≠ 0 ∧
    0 < metro800.attack_len ∧ 0 < metro800.decay_len ∧
    metro800.attack_len + metro800.decay_len < frames_per_beat metro800 ∧
    frames_per_beat metro800 = 400 ∧ metro800.wave_len = 0 ∧
    play_checked metro800 (List.replicate 400 0) 0 (frames_per_beat metro800) = none := by
  decide!

/-- C17 (amended): on an instance whose wave table has `wave_len > 0` entries,
with `wave_offset < wave_len`: a beat started in `Attack` with `elapsed_len = 0`,
rolling, with `attack_len > 0`, `decay_len > 0` and
`attack_len + decay_len < frames_per_beat`, rendered for `frames_per_beat`
frames: `play` within the buffer is defined; the frame at elapsed position `e` is
rendered in
`Attack` for `e ≤ attack_len`, in `Decay` for
`attack_len < e ≤ attack_len + decay_len` and in `Off` afterwards; its sample is
the `float` value of the wave table entry times `e / attack_len`, times
`1 - (e - attack_len) / decay_len`, respectively `0`; the output is `0` at
`e = 0` and for every `e ≥ attack_len + decay_len`; and the instance ends in
`Attack` with `elapsed_len = 0`. -/
theorem envelope_schedule (self : Metro) (output : List ℚ)
    (hst : self.state = STATE_ATTACK) (he : self.elapsed_len = 0) (hsp : self.speed ≠ 0)
    (ha : 0 < self.attack_len) (hd : 0 < self.decay_len)
    (hlen : self.attack_len + self.decay_len < frames_per_beat self)
    (hwl : 0 < self.wave_len) (hwf : self.wave.length = self.wave_len)
    (hwo : self.wave_offset < self.wave_len) :
    (∀ e, e ≤ output.length → play_checked self output 0 e = some (play self output 0 e)) ∧
    (∀ e, e < frames_per_beat self →
      (play self output 0 e).1.elapsed_len = e ∧
      (play self output 0 e).1.state = schedule_state self e) ∧
    (∀ e, e < frames_per_beat self → e < output.length →
      (play self output 0 (frames_per_beat self)).2.getD e 0 =
        schedule_sample self (wave_at self (play self output 0 e).1.wave_offset) e) ∧
    (∀ e, self.attack_len + self.decay_len ≤ e → e < frames_per_beat self →
      e < output.length → (play self output 0 (frames_per_beat self)).2.getD e 0 = 0) ∧
    (0 < output.length → (play self output 0 (frames_per_beat self)).2.getD 0 0 = 0) ∧
    (play self output 0 (frames_per_beat self)).1.state = STATE_ATTACK ∧
    (play self output 0 (frames_per_beat self)).1.elapsed_len = 0 := by
  have hM := frames_per_beat_lt self
  have hsched : ∀ e, e < frames_per_beat self →
      (play self output 0 e).1.elapsed_len = e ∧
      (play self output 0 e).1.state = schedule_state self e := by
    intro e hlt
    rw [play_playing self output 0 e hsp, Nat.sub_zero]
    exact play_loop_schedule _ _ _ _ _ hst he hd hlen hM hlt
  have hsample : ∀ e, e < frames_per_beat self → e < output.length →
      (play self output 0 (frames_per_beat self)).2.getD e 0 =
        schedule_sample self (wave_at self (play self output 0 e).1.wave_offset) e := by
    intro e hlt hlen2
    obtain ⟨s1, s2⟩ := hsched e hlt
    have hw : wave_at (play self output 0 e).1 (play self output 0 e).1.wave_offset =
        wave_at self (play self output 0 e).1.wave_offset := by
      unfold wave_at
      rw [play_wave]
    rw [← hw, ← play_sample_schedule self (play self output 0 e).1 e (play_attack_len _ _ _ _)
      (play_decay_len _ _ _ _) s1 s2 (by omega)]
    have h0 : e = 0 + e := by omega
    rw [play_playing self output 0 _ hsp, play_playing self output 0 e hsp, Nat.sub_zero,
      Nat.sub_zero]
    conv_lhs => rw [h0]
    rw [play_loop_getD_inside _ _ _ _ _ _ hlt (by omega), play_frame_snd]
  refine ⟨fun e h => play_checked_eq self output 0 e hwl hwf hwo (Nat.zero_le _) h,
    hsched, hsample, ?_, ?_, ?_⟩
  · intro e hge hlt hlen2
    rw [hsample e hlt hlen2]
    exact (schedule_sample_zero self _ hd).2 e hge
  · intro hlen2
    rw [hsample 0 (by omega) hlen2]
    exact (schedule_sample_zero self _ hd).1
  · obtain ⟨s1, _⟩ := hsched (frames_per_beat self - 1) (by omega)
    have hlast : play self output 0 (frames_per_beat self) =
        play (play self output 0 (frames_per_beat self - 1)).1
          (play self output 0 (frames_per_beat self - 1)).2 (frames_per_beat self - 1)
          (frames_per_beat self) :=
      (play_then_play self output 0 (frames_per_beat self - 1) (frames_per_beat self) hsp
        (Nat.zero_le _) (Nat.sub_le _ _)).symm
    have hu : u32_add (play self output 0 (frames_per_beat self - 1)).1.elapsed_len 1 =
        frames_per_beat self := by
      rw [s1, u32_add_of_lt (by omega)]
      omega
    have hsp2 : (play self output 0 (frames_per_beat self - 1)).1.speed ≠ 0 := by
      rw [play_speed]; exact hsp
    have hf : frames_per_beat (play self output 0 (frames_per_beat self - 1)).1 =
        frames_per_beat self :=
      frames_per_beat_congr self _ (play_bpm _ _ _ _) (play_rate _ _ _ _)
    have h1 : frames_per_beat self - (frames_per_beat self - 1) = 1 := by omega
    rw [hlast, play_playing _ _ _ _ hsp2, hf, h1, play_loop_succ, play_loop_zero]
    simp [play_frame, hu]

/-- Witness of C17: the 3520 Hz instance at the start of a beat
(`attack_len = 17`, `decay_len = 264`, `frames_per_beat = 1760`). -/
theorem envelope_schedule_witness :
    (({ metro3520 with elapsed_len := 0 } : Metro).state = STATE_ATTACK ∧
      ({ metro3520 with elapsed_len := 0 } : Metro).speed ≠ 0 ∧
      ({ metro3520 with elapsed_len := 0 } : Metro).attack_len +
          ({ metro3520 with elapsed_len := 0 } : Metro).decay_len <
        frames_per_beat { metro3520 with elapsed_len := 0 } ∧
      0 < ({ metro3520 with elapsed_len := 0 } : Metro).wave_len ∧
      ({ metro3520 with elapsed_len := 0 } : Metro).wave.length =
        ({ metro3520 with elapsed_len := 0 } : Metro).wave_len ∧
      ({ metro3520 with elapsed_len := 0 } : Metro).wave_offset <
        ({ metro3520 with elapsed_len := 0 } : Metro).wave_len) ∧
    (play { metro3520 with elapsed_len := 0 } (List.replicate 1760 0) 0
        (frames_per_beat { metro3520 with elapsed_len := 0 })).1.state = STATE_ATTACK ∧
    (play { metro3520 with elapsed_len := 0 } (List.replicate 1760 0) 0
        (frames_per_beat { metro3520 with elapsed_len := 0 })).1.elapsed_len = 0 :=
  ⟨by decide!,
    (envelope_schedule { metro3520 with elapsed_len := 0 } (List.replicate 1760 0) rfl rfl
      (by decide!) (by decide!) (by decide!) (by decide!) (by decide!) (by decide!)
      (by decide!)).2.2.2.2.2⟩

/-! ### A beat trigger that is missed -/

theorem play_switch_attack (self : Metro) (h : play_switch self = STATE_ATTACK) :
    self.state = STATE_ATTACK := by
  unfold play_switch at h
  cases hs : self.state with
  | STATE_ATTACK => rfl
  | STATE_DECAY =>
    rw [hs] at h
    simp only [] at h
    split at h <;> cases h
  | STATE_OFF =>
    rw [hs] at h
    cases h

theorem play_switch_off (self : Metro) (h : self.state = STATE_OFF) :
    play_switch self = STATE_OFF := by
  unfold play_switch
  rw [h]

/-- With `elapsed_len` at or past the beat length, the loop of `play` counts on
without firing the beat trigger. -/
theorem play_loop_missed (fpb k i : ℕ) (self : Metro) (output : List ℚ)
    (hge : fpb ≤ self.elapsed_len) (hM : self.elapsed_len + k < UINT32_MOD) :
    (play_loop fpb k i self output).1.elapsed_len = self.elapsed_len + k ∧
    ((play_loop fpb k i self output).1.state = STATE_ATTACK → self.state = STATE_ATTACK) ∧
    (self.state = STATE_OFF → (play_loop fpb k i self output).1.state = STATE_OFF) := by
  induction k with
  | zero => exact ⟨rfl, fun h => h, fun h => h⟩
  | succ k ih =>
    obtain ⟨e1, e2, e3⟩ := ih (by omega)
    have hu : u32_add (play_loop fpb k i self output).1.elapsed_len 1 =
        self.elapsed_len + k + 1 := by
      rw [e1]; exact u32_add_of_lt (by omega)
    obtain ⟨n1, n2⟩ := play_frame_no_wrap fpb (play_loop fpb k i self output).1
      (by rw [hu]; omega)
    rw [play_loop_last, n1, n2, hu]
    exact ⟨rfl, fun h => e2 (play_switch_attack _ h), fun h => play_switch_off _ (e3 h)⟩

/-- Counterexample to C20 as stated: the 800 Hz instance (`wave_len = 0`), in
`Off` with `elapsed_len = 400 ≥ 400 = frames_per_beat`, rolls, and `play` over one
frame of a one-frame buffer divides by zero: no state results. -/
theorem missed_beat_trigger_undefined :
    ({ metro800 with elapsed_len := 400, state := STATE_OFF } : Metro).speed ≠ 0 ∧
    frames_per_beat { metro800 with elapsed_len := 400, state := STATE_OFF } = 400 ∧
    frames_per_beat { metro800 with elapsed_len := 400, state := STATE_OFF } ≤
      ({ metro800 with elapsed_len := 400, state := STATE_OFF } : Metro).elapsed_len ∧
    ({ metro800 with elapsed_len := 400, state := STATE_OFF } : Metro).wave_len = 0 ∧
    play_checked { metro800 with elapsed_len := 400, state := STATE_OFF } [0] 0 1 = none := by
  decide!

/-- C20 (amended): on an instance whose wave table has `wave_len > 0` entries,
with `wave_offset < wave_len`: when `play` is entered with a rolling transport
and `elapsed_len ≥ frames_per_beat`, then over a span of `n` frames with
`elapsed_len + n < 2^32` `play` within the buffer is defined (with the instance
stated here as its result) and the beat trigger does not fire:
after `k ≤ n` frames `elapsed_len` has grown by `k` (it ends at
`elapsed_len + n`), every frame leaves the state chosen by the envelope switch,
the state is `Attack` only if it was `Attack` on entry, and once it is `Off` it
stays `Off` and the samples are zero. -/
theorem missed_beat_trigger (self : Metro) (output : List ℚ) (begin end_ : ℕ)
    (hsp : self.speed ≠ 0) (hge : frames_per_beat self ≤ self.elapsed_len)
    (hM : self.elapsed_len + (end_ - begin) < UINT32_MOD) (hwl : 0 < self.wave_len)
    (hwf : self.wave.length = self.wave_len) (hwo : self.wave_offset < self.wave_len) :
    (∀ e, begin ≤ e → e ≤ output.length →
      (play_checked self output begin e).map (fun r => r.1) =
        some (play self output begin e).1) ∧
    (play self output begin end_).1.elapsed_len = self.elapsed_len + (end_ - begin) ∧
    (∀ k, k ≤ end_ - begin →
      (play self output begin (begin + k)).1.elapsed_len = self.elapsed_len + k ∧
      ((play self output begin (begin + k)).1.state = STATE_ATTACK →
        self.state = STATE_ATTACK)) ∧
    (∀ k, k < end_ - begin →
      (play self output begin (begin + (k + 1))).1.state =
        play_switch (play self output begin (begin + k)).1) ∧
    (∀ k j, k ≤ j → j < end_ - begin →
      (play self output begin (begin + k)).1.state = STATE_OFF →
      (play self output begin (begin + j)).1.state = STATE_OFF ∧
      (begin + j < output.length → (play self output begin end_).2.getD (begin + j) 0 = 0)) := by
  have hstep : ∀ k, k ≤ end_ - begin →
      play self output begin (begin + k) =
        play_loop (frames_per_beat self) k begin self output := by
    intro k _
    have hk : begin + k - begin = k := by omega
    rw [play_playing self output begin _ hsp, hk]
  refine ⟨fun e h1 h2 => play_checked_fst self output begin e hwl hwf hwo h1 h2,
    ?_, ?_, ?_, ?_⟩
  · rw [play_playing self output begin end_ hsp]
    exact (play_loop_missed _ _ _ _ _ hge hM).1
  · intro k hk
    rw [hstep k hk]
    obtain ⟨e1, e2, _⟩ := play_loop_missed (frames_per_beat self) k begin self output hge
      (by omega)
    exact ⟨e1, e2⟩
  · intro k hk
    rw [hstep k (by omega), hstep (k + 1) (by omega), play_loop_last]
    obtain ⟨e1, _, _⟩ := play_loop_missed (frames_per_beat self) k begin self output hge
      (by omega)
    have hu : u32_add (play_loop (frames_per_beat self) k begin self output).1.elapsed_len 1 =
        self.elapsed_len + k + 1 := by
      rw [e1]; exact u32_add_of_lt (by omega)
    exact (play_frame_no_wrap _ _ (by rw [hu]; omega)).1
  · intro k j hkj hj hoff
    rw [hstep k (by omega)] at hoff
    rw [hstep j (by omega)]
    have hjk : j = k + (j - k) := by omega
    obtain ⟨e1, _, _⟩ := play_loop_missed (frames_per_beat self) k begin self output hge
      (by omega)
    have hoffj : (play_loop (frames_per_beat self) j begin self output).1.state = STATE_OFF := by
      rw [hjk, play_loop_add]
      exact (play_loop_missed (frames_per_beat self) (j - k) (begin + k) _ _
        (by rw [e1]; omega) (by rw [e1]; omega)).2.2 hoff
    refine ⟨hoffj, ?_⟩
    intro hlen
    rw [play_playing self output begin end_ hsp,
      play_loop_getD_inside _ _ _ j _ _ hj hlen]
    exact play_frame_off_sample _ _ hoffj

/-- Witness of C20: the 48 kHz instance at the tempo `102.4f`, where
`frames_per_beat` is 28125, entered at `elapsed_len = 28125` in `Off`, over 100
frames: `elapsed_len` ends at 28225. -/
theorem missed_beat_trigger_witness :
    (({ metro48k with bpm := f32 (1024 / 10), elapsed_len := 28125 } : Metro).speed ≠ 0 ∧
      frames_per_beat { metro48k with bpm := f32 (1024 / 10), elapsed_len := 28125 } = 28125 ∧
      ({ metro48k with bpm := f32 (1024 / 10), elapsed_len := 28125 } : Metro).elapsed_len =
        28125 ∧
      0 < ({ metro48k with bpm := f32 (1024 / 10), elapsed_len := 28125 } : Metro).wave_len ∧
      ({ metro48k with bpm := f32 (1024 / 10), elapsed_len := 28125 } : Metro).wave.length =
        ({ metro48k with bpm := f32 (1024 / 10), elapsed_len := 28125 } : Metro).wave_len ∧
      ({ metro48k with bpm := f32 (1024 / 10), elapsed_len := 28125 } : Metro).wave_offset <
        ({ metro48k with bpm := f32 (1024 / 10), elapsed_len := 28125 } : Metro).wave_len) ∧
    (play { metro48k with bpm := f32 (1024 / 10), elapsed_len := 28125 } (List.replicate 100 1)
        0 100).1.elapsed_len =
      ({ metro48k with bpm := f32 (1024 / 10), elapsed_len := 28125 } : Metro).elapsed_len +
        (100 - 0) :=
  ⟨by decide!,
    (missed_beat_trigger { metro48k with bpm := f32 (1024 / 10), elapsed_len := 28125 }
      (List.replicate 100 1) 0 100 (by decide!) (by decide!) (by decide!) (by decide!)
      (by decide!) (by decide!)).2.1⟩

/-! ### The lengths `instantiate` derives -/

theorem f2u32_eq_floor (y : ℚ) (h0 : 0 ≤ y) (h1 : y < (UINT32_MOD : ℚ)) :
    ((f2u32 y : ℕ) : ℤ) = ⌊y⌋ := by
  obtain ⟨g1, g2⟩ := f2u32_floor y h0 h1
  symm
  rw [Int.floor_eq_iff]
  push_cast
  exact ⟨g1, g2⟩

/-- Counterexample to C13 as stated: at a sample rate of 800 Hz `instantiate`
yields `wave_len = 0`, and at a sample rate of 1 Hz `attack_len + decay_len` and
the `frames_per_beat` of `play` at 120 BPM are both 0. -/
theorem instantiate_low_rate :
    (instantiate 800 (some uris0) (sine_tbl 800)).map (fun s => s.wave_len) = some 0 ∧
    (instantiate 1 (some uris0) (sine_tbl 1)).map
        (fun s => (s.attack_len + s.decay_len, frames_per_beat s)) = some (0, 0) := by
  decide!

theorem attack_s_bounds : 0 ≤ attack_s ∧ attack_s ≤ 1 / 128 := by decide!

theorem decay_s_bounds : 0 ≤ decay_s ∧ decay_s ≤ 1 / 8 := by decide!

/-- A `double` of at least 2 divided by a small power of two is a `double`. -/
theorem f64_div_two_pow (rate : ℚ) (j : ℕ) (hr : f64 rate = rate) (h2 : 2 ≤ rate)
    (hj : j ≤ 1000) : f64 (rate / (2 : ℚ) ^ j) = rate / (2 : ℚ) ^ j := by
  have hpos : 0 < rate := by linarith
  have hlog : 1 ≤ ilog2 rate := by
    have := ilog2_mono 2 rate (by norm_num) h2
    rw [ilog2_two] at this
    exact this
  exact (rnd_div_two_pow 53 (-1074) rate j hpos hr (by push_cast; omega)).1

/-- C13 (amended): for a `double` sample rate whose half is below `2^32`, the
instance `instantiate` builds has `wave_len > 0` when the rate is at least 880,
and `attack_len + decay_len < frames_per_beat` (the value `play` computes at the
default 120 BPM) when the rate is at least 2. -/
theorem instantiate_lengths_fit (rate : ℚ) (uris : MetroURIs) (tbl : ℕ → ℚ)
    (hr : f64 rate = rate) (hM : rate / 2 < (UINT32_MOD : ℚ)) :
    ∃ s, instantiate rate (some uris) tbl = some s ∧ s.bpm = 120 ∧
      (880 ≤ rate → 0 < s.wave_len) ∧
      (2 ≤ rate → s.attack_len + s.decay_len < frames_per_beat s) := by
  refine ⟨_, rfl, rfl, ?_, ?_⟩
  · intro h
    have h2 : (2 : ℚ) ≤ rate := by linarith
    have hhalf : f64 (rate / 2) = rate / 2 := by
      have := f64_div_two_pow rate 1 hr h2 (by norm_num)
      rwa [pow_one] at this
    have h3 : (1 : ℚ) ≤ rate / (440 * 2) := by
      rw [le_div_iff₀ (by norm_num)]
      linarith
    have hle : rate / (440 * 2) ≤ rate / 2 :=
      div_le_div_of_nonneg_left (by linarith) (by norm_num) (by norm_num)
    have w1 : 1 ≤ f64 (rate / (440 * 2)) := le_f64_of_le _ 1 f64_one zero_le_one h3
    have w2 : f64 (rate / (440 * 2)) ≤ rate / 2 :=
      f64_le_of_le _ _ hhalf (by linarith) hle
    obtain ⟨_, g2⟩ := f2u32_floor (f64 (rate / (440 * 2))) (by linarith) (by linarith)
    have h4 : (0 : ℚ) < (f2u32 (f64 (rate / (440 * 2))) : ℚ) := by linarith
    show 0 < f2u32 (f64 (rate / (440 * 2)))
    exact_mod_cast h4
  · intro h
    have hpos : (0 : ℚ) ≤ rate := by linarith
    have hhalf : f64 (rate / 2) = rate / 2 := by
      have := f64_div_two_pow rate 1 hr h (by norm_num)
      rwa [pow_one] at this
    have h8 : f64 (rate / 8) = rate / 8 := by
      have := f64_div_two_pow rate 3 hr h (by norm_num)
      norm_num at this
      exact this
    have h128 : f64 (rate / 128) = rate / 128 := by
      have := f64_div_two_pow rate 7 hr h (by norm_num)
      norm_num at this
      exact this
    obtain ⟨a0, a1⟩ := attack_s_bounds
    obtain ⟨d0, d1⟩ := decay_s_bounds
    have hA : f64 (attack_s * rate) ≤ rate / 128 := by
      refine f64_le_of_le _ _ h128 (by positivity) ?_
      have := mul_le_mul_of_nonneg_right a1 hpos
      linarith
    have hD : f64 (decay_s * rate) ≤ rate / 8 := by
      refine f64_le_of_le _ _ h8 (by positivity) ?_
      have := mul_le_mul_of_nonneg_right d1 hpos
      linarith
    have hA0 : 0 ≤ f64 (attack_s * rate) := f64_nonneg _ (mul_nonneg a0 hpos)
    have hD0 : 0 ≤ f64 (decay_s * rate) := f64_nonneg _ (mul_nonneg d0 hpos)
    have hF : f64 (f32 (60 / 120) * rate) = rate / 2 := by
      rw [f32_half]
      have e : (1 : ℚ) / 2 * rate = rate / 2 := by ring
      rw [e, hhalf]
    obtain ⟨ga, _⟩ := f2u32_floor (f64 (attack_s * rate)) hA0 (by linarith)
    obtain ⟨gd, _⟩ := f2u32_floor (f64 (decay_s * rate)) hD0 (by linarith)
    obtain ⟨_, gf⟩ := f2u32_floor (rate / 2) (by linarith) hM
    show f2u32 (f64 (attack_s * rate)) + f2u32 (f64 (decay_s * rate)) <
      f2u32 (f64 (f32 (60 / 120) * rate))
    rw [hF]
    by_cases hbig : 8 ≤ rate
    · have : ((f2u32 (f64 (attack_s * rate)) + f2u32 (f64 (decay_s * rate)) : ℕ) : ℚ) <
          ((f2u32 (rate / 2) : ℕ) : ℚ) := by
        push_cast
        linarith
      exact_mod_cast this
    · push_neg at hbig
      have hsa : ((f2u32 (f64 (attack_s * rate)) : ℕ) : ℚ) < ((1 : ℕ) : ℚ) := by
        push_cast
        linarith
      have hsd : ((f2u32 (f64 (decay_s * rate)) : ℕ) : ℚ) < ((1 : ℕ) : ℚ) := by
        push_cast
        linarith
      have hposf : (0 : ℚ) < ((f2u32 (rate / 2) : ℕ) : ℚ) := by linarith
      have k1 : f2u32 (f64 (attack_s * rate)) < 1 := by exact_mod_cast hsa
      have k3 : f2u32 (f64 (decay_s * rate)) < 1 := by exact_mod_cast hsd
      have k2 : 0 < f2u32 (rate / 2) := by exact_mod_cast hposf
      omega

/-- Witness of C13: the sample rate 48000, where `wave_len = 54` and
`attack_len + decay_len = 3840 < 24000 = frames_per_beat`. -/
theorem instantiate_lengths_fit_witness :
    f64 48000 = 48000 ∧ (48000 : ℚ) / 2 < (UINT32_MOD : ℚ) ∧
    (∃ s, instantiate 48000 (some uris0) (sine_tbl 48000) = some s ∧ s.bpm = 120 ∧
      (880 ≤ (48000 : ℚ) → 0 < s.wave_len) ∧
      (2 ≤ (48000 : ℚ) → s.attack_len + s.decay_len < frames_per_beat s)) ∧
    (instantiate 48000 (some uris0) (sine_tbl 48000)).map
        (fun s => (s.wave_len, s.attack_len + s.decay_len, frames_per_beat s)) =
      some (54, 3840, 24000) :=
  ⟨by decide!, by decide!,
    instantiate_lengths_fit 48000 uris0 (sine_tbl 48000) (by decide!) (by decide!), by decide!⟩

/-- Counterexample to C14 as stated: at 48000 Hz `instantiate` yields
`wave_len = 54`, while `48000 / 880` rounded to the nearest integer is 55. -/
theorem instantiate_wave_len_truncates :
    (instantiate 48000 (some uris0) (sine_tbl 48000)).map (fun s => s.wave_len) = some 54 ∧
    round_nearest (48000 / 880) = 55 := by
  decide!

/-- C14 (amended): for a sample rate in `[0, 2^32]`, `instantiate` sets
`attack_len`, `decay_len` and `wave_len` to the integer parts (rounded down) of
the `double` values `attack_s * rate`, `decay_s * rate` and `rate / 880`, where
`attack_s` and `decay_s` are the `double`s nearest to `0.005` and `0.075` and the
products and the quotient are rounded to `double`; at 48000 these are 240, 3600
and 54.  At the `double` nearest to `226 + 2/3` `decay_len` is 17, although the
real product `0.075 * rate` has the integer part 16. -/
theorem instantiate_lengths_floor (rate : ℚ) (uris : MetroURIs) (tbl : ℕ → ℚ)
    (h0 : 0 ≤ rate) (hM : rate ≤ (UINT32_MOD : ℚ)) :
    (∃ s, instantiate rate (some uris) tbl = some s ∧
      (s.attack_len : ℤ) = ⌊f64 (attack_s * rate)⌋ ∧
      (s.decay_len : ℤ) = ⌊f64 (decay_s * rate)⌋ ∧
      (s.wave_len : ℤ) = ⌊f64 (rate / 880)⌋) ∧
    (instantiate 48000 (some uris) tbl).map
        (fun s => (s.attack_len, s.decay_len, s.wave_len)) = some (240, 3600, 54) ∧
    ((instantiate (f64 (680 / 3)) (some uris) tbl).map (fun s => s.decay_len) = some 17 ∧
      ⌊(75 / 1000 : ℚ) * f64 (680 / 3)⌋ = 16) := by
  have hMq : (UINT32_MOD : ℚ) = 4294967296 := by
    unfold UINT32_MOD
    norm_num
  rw [hMq] at hM
  obtain ⟨a0, a1⟩ := attack_s_bounds
  obtain ⟨d0, d1⟩ := decay_s_bounds
  have hbig : f64 536870912 = 536870912 := by decide!
  refine ⟨⟨_, rfl, ?_, ?_, ?_⟩, ?_, ?_, ?_⟩
  · refine f2u32_eq_floor _ (f64_nonneg _ (mul_nonneg a0 h0)) ?_
    have h1 : attack_s * rate ≤ 536870912 := by
      have := mul_le_mul_of_nonneg_right a1 h0
      linarith
    have := f64_le_of_le _ _ hbig (by norm_num) h1
    rw [hMq]
    linarith
  · refine f2u32_eq_floor _ (f64_nonneg _ (mul_nonneg d0 h0)) ?_
    have h1 : decay_s * rate ≤ 536870912 := by
      have := mul_le_mul_of_nonneg_right d1 h0
      linarith
    have := f64_le_of_le _ _ hbig (by norm_num) h1
    rw [hMq]
    linarith
  · have e : (440 : ℚ) * 2 = 880 := by norm_num
    show ((f2u32 (f64 (rate / (440 * 2))) : ℕ) : ℤ) = ⌊f64 (rate / 880)⌋
    rw [e]
    refine f2u32_eq_floor _ (f64_nonneg _ (by positivity)) ?_
    have h1 : rate / 880 ≤ 536870912 := by
      rw [div_le_iff₀ (by norm_num)]
      linarith
    have := f64_le_of_le _ _ hbig (by norm_num) h1
    rw [hMq]
    linarith
  · have h1 : f2u32 (f64 (attack_s * 48000)) = 240 := by decide!
    have h2 : f2u32 (f64 (decay_s * 48000)) = 3600 := by decide!
    have h3 : f2u32 (f64 (48000 / (440 * 2))) = 54 := by decide!
    simp only [instantiate, Option.map_some', h1, h2, h3]
  · have h4 : f2u32 (f64 (decay_s * f64 (680 / 3))) = 17 := by decide!
    simp only [instantiate, Option.map_some', h4]
  · decide!

/-- Witness of C14: the sample rate 44100, where the three lengths are 220, 3307
and 50. -/
theorem instantiate_lengths_floor_witness :
    ((0 : ℚ) ≤ 44100 ∧ (44100 : ℚ) ≤ (UINT32_MOD : ℚ)) ∧
    (∃ s, instantiate 44100 (some uris0) (sine_tbl 44100) = some s ∧
      (s.attack_len : ℤ) = ⌊f64 (attack_s * 44100)⌋ ∧
      (s.decay_len : ℤ) = ⌊f64 (decay_s * 44100)⌋ ∧
      (s.wave_len : ℤ) = ⌊f64 ((44100 : ℚ) / 880)⌋) ∧
    (instantiate 44100 (some uris0) (sine_tbl 44100)).map
        (fun s => (s.attack_len, s.decay_len, s.wave_len)) = some (220, 3307, 50) :=
  ⟨by decide!,
    (instantiate_lengths_floor 44100 uris0 (sine_tbl 44100) (by decide!) (by decide!)).1,
    by decide!⟩

end EgMetro
